import Mathlib

/-!
Shallow embedding of the storybook-generator scripts (`cli.py`,
`cli_manual.py`, `cli_coloring.py`, and the bundled historical variants
`cli 27thMay.py` / `cli 8th may` / `cli stable working.py`) together with
proofs about the image-synthesis retry loop, the caption layout and wrap
algorithms, the cover auto-fit loop, the PDF page assembly, the prompt
audit log, and the `parse_spec` / `safe` string helpers.

External collaborators (the remote image service, the OpenAI/Gemini text
services, the font rasterizer, and Unicode NFKD normalisation) are modelled
as explicit parameters, exactly as the spec treats them (out of scope,
mockable boundaries).  Everything else is translated directly from the
Python source.
-/

namespace Storybook

/-- An RGB colour triple. -/
abbrev Color := Nat × Nat × Nat

/-- A raster image: pixel dimensions plus a pixel map.  Mirrors a PIL
`Image` as far as the scripts observe one (size and pixel contents). -/
structure Img where
  width : Nat
  height : Nat
  px : Nat → Nat → Color

/-- `PIL.Image.new("RGB", size, color)`: a flat fill of one colour. -/
def imageNew (size : Nat × Nat) (c : Color) : Img :=
  ⟨size.1, size.2, fun _ _ => c⟩

/-- One possible behaviour of a single remote `generate_images` call:
a successfully decoded image, an empty result (`generated_images` missing
or empty `image_bytes`), bytes that `Image.open` cannot decode (raises),
a raised service error, or a timeout. -/
inductive SvcOutcome where
  | ok (img : Img)
  | empty
  | undecodable
  | err
  | timeout

/-- A mocked service behaviour: the outcome of the `i`-th remote call. -/
abbrev Behaviour := Nat → SvcOutcome

/-- `MAX_RETRY = 2` (same constant in `cli.py` and `cli_manual.py`). -/
def MAX_RETRY : Nat := 2

/-- `RAW_SIZE = (768, 1024)`. -/
def RAW_SIZE : Nat × Nat := (768, 1024)

/-- `PAGE_SIZE = (595, 842)` in `cli.py` / `cli_manual.py`. -/
def PAGE_SIZE : Nat × Nat := (595, 842)

/-- Core of the retry loops in `imagen` (`cli_manual.py`) and `_imagen`
(`cli.py`): starting at call index `i` with `k` attempts remaining, issue
one remote call per attempt; only an `ok` outcome (non-empty raster bytes
that decode as a valid image) returns that image, every other outcome
(empty result, undecodable bytes, raised error, timeout) is caught inside
the loop body and the next attempt runs; `none` when all attempts fail. -/
def imagenRun (beh : Behaviour) : Nat → Nat → Option Img
  | _, 0 => none
  | i, k + 1 =>
    match beh i with
    | .ok img => some img
    | _ => imagenRun beh (i + 1) k

/-- Number of remote calls the retry loop issues (one per attempt, stopping
at the first success). -/
def imagenCalls (beh : Behaviour) : Nat → Nat → Nat
  | _, 0 => 0
  | i, k + 1 =>
    match beh i with
    | .ok _ => 1
    | _ => 1 + imagenCalls beh (i + 1) k

/-- The grey fallback placeholder `Image.new("RGB", RAW_SIZE, (220, 220, 220))`
returned when every attempt has failed. -/
def placeholderImg : Img := imageNew RAW_SIZE (220, 220, 220)

/-- `imagen(prompt)` from `cli_manual.py`: `for i in range(MAX_RETRY + 1)`
(three attempts), returning the first successfully decoded image, else the
grey `RAW_SIZE` placeholder.  The prompt does not influence control flow,
so the embedding is indexed by the mocked service behaviour alone. -/
def imagen (beh : Behaviour) : Img :=
  (imagenRun beh 0 (MAX_RETRY + 1)).getD placeholderImg

/-- Whether `imagen` fell through to the placeholder (no attempt produced a
decodable image); this is the observable "degraded" marker of the
SynthesisResult abstraction in the spec. -/
def imagenDegraded (beh : Behaviour) : Bool :=
  (imagenRun beh 0 (MAX_RETRY + 1)).isNone

/-- `_imagen(prompt)` from `cli.py`: `for _ in range(MAX_RETRY)` (two
attempts), returning the first successfully decoded image, else the grey
`RAW_SIZE` placeholder. -/
def imagenCliRaw (beh : Behaviour) : Img :=
  (imagenRun beh 0 MAX_RETRY).getD placeholderImg

/-- The retry loop never issues more calls than it has attempts. -/
theorem imagenCalls_le (beh : Behaviour) : ∀ k i, imagenCalls beh i k ≤ k := by
  intro k
  induction k with
  | zero => intro i; simp [imagenCalls]
  | succ k ih =>
    intro i
    unfold imagenCalls
    cases beh i <;> simp
    all_goals
      have := ih (i + 1)
      omega

/-- C1: for every behaviour of the remote image service (success, empty
result, undecodable bytes, raised error, timeout), the image-synthesis
operations `imagen` (`cli_manual.py`, one tier of `MAX_RETRY + 1 = 3`
attempts) and `_imagen` (`cli.py`, one tier of `MAX_RETRY = 2` attempts)
return a raster image without raising — the first decoded success, or the
placeholder when all attempts fail — and issue at most
tiers × max_attempts_per_tier remote calls before returning. -/
theorem imagen_total_and_call_bounded (beh : Behaviour) :
    imagenCalls beh 0 (MAX_RETRY + 1) ≤ 1 * (MAX_RETRY + 1) ∧
    imagenCalls beh 0 MAX_RETRY ≤ 1 * MAX_RETRY ∧
    (∀ img, imagenRun beh 0 (MAX_RETRY + 1) = some img → imagen beh = img) ∧
    (imagenRun beh 0 (MAX_RETRY + 1) = none → imagen beh = placeholderImg) ∧
    (∀ img, imagenRun beh 0 MAX_RETRY = some img → imagenCliRaw beh = img) ∧
    (imagenRun beh 0 MAX_RETRY = none → imagenCliRaw beh = placeholderImg) := by
  refine ⟨by simpa using imagenCalls_le beh (MAX_RETRY + 1) 0,
          by simpa using imagenCalls_le beh MAX_RETRY 0, ?_, ?_, ?_, ?_⟩
  · intro img h; simp [imagen, h]
  · intro h; simp [imagen, h]
  · intro img h; simp [imagenCliRaw, h]
  · intro h; simp [imagenCliRaw, h]

/-- Witness for C1: at the always-empty behaviour the loop falls through
to the placeholder within its call budget, and at an always-succeeding
behaviour it returns the decoded image. -/
theorem imagen_total_and_call_bounded_witness :
    imagenRun (fun _ => SvcOutcome.empty) 0 (MAX_RETRY + 1) = none ∧
    imagen (fun _ => SvcOutcome.empty) = placeholderImg ∧
    imagenCalls (fun _ => SvcOutcome.empty) 0 (MAX_RETRY + 1) ≤
      1 * (MAX_RETRY + 1) ∧
    imagenRun (fun _ => SvcOutcome.ok placeholderImg) 0 (MAX_RETRY + 1) =
      some placeholderImg ∧
    imagen (fun _ => SvcOutcome.ok placeholderImg) = placeholderImg :=
  ⟨rfl,
   (imagen_total_and_call_bounded (fun _ => SvcOutcome.empty)).2.2.2.1 rfl,
   (imagen_total_and_call_bounded (fun _ => SvcOutcome.empty)).1,
   rfl,
   (imagen_total_and_call_bounded
     (fun _ => SvcOutcome.ok placeholderImg)).2.2.1 placeholderImg rfl⟩

/-- C2: if the service returns an empty result on every call, `imagen`
exhausts all its attempts and returns the degraded fixed-size fixed-colour
placeholder: a flat `(220, 220, 220)` fill of size `RAW_SIZE = 768 × 1024`. -/
theorem imagen_all_empty_gives_placeholder (beh : Behaviour)
    (h : ∀ i, i < MAX_RETRY + 1 → beh i = .empty) :
    imagenDegraded beh = true ∧
    (imagen beh).width = 768 ∧ (imagen beh).height = 1024 ∧
    ∀ x y, (imagen beh).px x y = (220, 220, 220) := by
  have hrun : imagenRun beh 0 (MAX_RETRY + 1) = none := by
    have h0 := h 0 (by norm_num [MAX_RETRY])
    have h1 := h 1 (by norm_num [MAX_RETRY])
    have h2 := h 2 (by norm_num [MAX_RETRY])
    simp [MAX_RETRY, imagenRun, h0, h1, h2]
  refine ⟨by simp [imagenDegraded, hrun], ?_, ?_, ?_⟩
  · simp [imagen, hrun, placeholderImg, imageNew, RAW_SIZE]
  · simp [imagen, hrun, placeholderImg, imageNew, RAW_SIZE]
  · intro x y; simp [imagen, hrun, placeholderImg, imageNew]

/-- Witness for C2 at the concrete always-empty behaviour. -/
theorem imagen_all_empty_gives_placeholder_witness :
    (∀ i, i < MAX_RETRY + 1 → (fun _ => SvcOutcome.empty) i = .empty) ∧
    (imagenDegraded (fun _ => SvcOutcome.empty) = true ∧
     (imagen (fun _ => SvcOutcome.empty)).width = 768 ∧
     (imagen (fun _ => SvcOutcome.empty)).height = 1024 ∧
     ∀ x y, (imagen (fun _ => SvcOutcome.empty)).px x y = (220, 220, 220)) :=
  ⟨fun _ _ => rfl,
   imagen_all_empty_gives_placeholder (fun _ => SvcOutcome.empty) (fun _ _ => rfl)⟩

/-- The characters kept by `.encode("latin-1", "ignore")`: characters
with code point ≤ 255 survive (each as the byte equal to its code point),
characters above U+00FF are dropped.  This is the encode stage of `safe`,
read back as code points; the subsequent strict decode is `safe` below. -/
def latin1Ignored (nfkd : String → String) (s : String) : String :=
  String.mk ((nfkd s).data.filter (fun c => c.toNat ≤ 255))

/-- The byte string `.encode("latin-1", "ignore")` produces. -/
def latin1Bytes (nfkd : String → String) (s : String) : List Nat :=
  (latin1Ignored nfkd s).data.map Char.toNat

/-- A UTF-8 continuation byte, `0x80–0xBF`. -/
def utf8Cont (b : Nat) : Bool := decide (0x80 ≤ b ∧ b ≤ 0xBF)

/-- Valid second byte of a 3-byte UTF-8 sequence with lead byte `b`
(strict: rejects overlong encodings and surrogates). -/
def utf8Second3 (b b2 : Nat) : Bool :=
  if b = 0xE0 then decide (0xA0 ≤ b2 ∧ b2 ≤ 0xBF)
  else if b = 0xED then decide (0x80 ≤ b2 ∧ b2 ≤ 0x9F)
  else utf8Cont b2

/-- Valid second byte of a 4-byte UTF-8 sequence with lead byte `b`
(strict: rejects overlong encodings and code points above U+10FFFF). -/
def utf8Second4 (b b2 : Nat) : Bool :=
  if b = 0xF0 then decide (0x90 ≤ b2 ∧ b2 ≤ 0xBF)
  else if b = 0xF4 then decide (0x80 ≤ b2 ∧ b2 ≤ 0x8F)
  else utf8Cont b2

/-- Decode one strict-UTF-8 sequence from the front of a byte list:
the code point and the number of bytes consumed, or `none` on an invalid
lead byte or continuation. -/
def utf8DecodeOne : List Nat → Option (Char × Nat)
  | [] => none
  | b :: bs =>
    if b ≤ 0x7F then some (Char.ofNat b, 1)
    else if 0xC2 ≤ b ∧ b ≤ 0xDF then
      match bs with
      | b2 :: _ =>
        if utf8Cont b2 then
          some (Char.ofNat ((b - 0xC0) * 0x40 + (b2 - 0x80)), 2)
        else none
      | [] => none
    else if 0xE0 ≤ b ∧ b ≤ 0xEF then
      match bs with
      | b2 :: b3 :: _ =>
        if utf8Second3 b b2 && utf8Cont b3 then
          some (Char.ofNat
            ((b - 0xE0) * 0x1000 + (b2 - 0x80) * 0x40 + (b3 - 0x80)), 3)
        else none
      | _ => none
    else if 0xF0 ≤ b ∧ b ≤ 0xF4 then
      match bs with
      | b2 :: b3 :: b4 :: _ =>
        if utf8Second4 b b2 && utf8Cont b3 && utf8Cont b4 then
          some (Char.ofNat ((b - 0xF0) * 0x40000 +
            (b2 - 0x80) * 0x1000 + (b3 - 0x80) * 0x40 + (b4 - 0x80)), 4)
        else none
      | _ => none
    else none

/-- Strict UTF-8 decoding of a byte list, one sequence at a time (fuel is
the list length, enough for one step per byte); `none` models a raised
`UnicodeDecodeError`. -/
def utf8DecodeLoop : Nat → List Nat → Option (List Char)
  | _, [] => some []
  | 0, _ :: _ => none
  | fuel + 1, b :: bs =>
    match utf8DecodeOne (b :: bs) with
    | none => none
    | some cn =>
      match utf8DecodeLoop fuel ((b :: bs).drop cn.2) with
      | none => none
      | some cs => some (cn.1 :: cs)

/-- Python `bytes.decode()` with no arguments: strict UTF-8. -/
def utf8Decode (bs : List Nat) : Option (List Char) :=
  utf8DecodeLoop bs.length bs

/-- `safe = lambda s: unicodedata.normalize("NFKD", s).encode("latin-1",
"ignore").decode()` (identical in `cli.py`, `cli_manual.py` and the
variants).  NFKD normalisation is the external `unicodedata` collaborator,
passed in as `nfkd`; the encode stage keeps the ≤ U+00FF characters as
Latin-1 bytes and drops the rest; the final `.decode()` is a STRICT UTF-8
decode of those bytes, which succeeds exactly when they form valid UTF-8 —
`none` models the `UnicodeDecodeError` it otherwise raises.  Bytes in
`0x80–0xFF` are therefore re-interpreted, not passed through: a lone high
byte raises, and a valid multi-byte sequence decodes to a different (and
possibly non-Latin-1) character. -/
def safe (nfkd : String → String) (s : String) : Option String :=
  (utf8Decode (latin1Bytes nfkd s)).map String.mk

/-- Strict UTF-8 decoding of pure-ASCII bytes succeeds and is the
identity on code points. -/
theorem utf8DecodeLoop_ascii :
    ∀ fuel bs, bs.length ≤ fuel → (∀ b ∈ bs, b ≤ 0x7F) →
      utf8DecodeLoop fuel bs = some (bs.map Char.ofNat) := by
  intro fuel
  induction fuel with
  | zero =>
    intro bs hlen _
    cases bs with
    | nil => rfl
    | cons b rest => simp at hlen
  | succ f ih =>
    intro bs hlen h
    cases bs with
    | nil => rfl
    | cons b rest =>
      have hb : b ≤ 0x7F := h b (List.mem_cons_self _ _)
      have hone : utf8DecodeOne (b :: rest) = some (Char.ofNat b, 1) := by
        simp only [utf8DecodeOne]
        rw [if_pos hb]
      simp only [utf8DecodeLoop, hone]
      rw [show (b :: rest).drop 1 = rest from rfl,
        ih rest (by simpa using Nat.le_of_succ_le_succ hlen)
          (fun x hx => h x (List.mem_cons_of_mem _ hx))]
      rfl

/-- `utf8Decode` on pure-ASCII bytes. -/
theorem utf8Decode_ascii (bs : List Nat) (h : ∀ b ∈ bs, b ≤ 0x7F) :
    utf8Decode bs = some (bs.map Char.ofNat) :=
  utf8DecodeLoop_ascii bs.length bs (Nat.le_refl _) h

/-- When every character kept by the encode stage is ASCII, `safe`
returns exactly the kept characters: the claimed silent-drop behaviour
holds on the ASCII fragment. -/
theorem safe_ascii (nfkd : String → String) (s : String)
    (h : ∀ c ∈ (latin1Ignored nfkd s).data, c.toNat ≤ 127) :
    safe nfkd s = some (latin1Ignored nfkd s) := by
  unfold safe latin1Bytes
  rw [utf8Decode_ascii]
  · simp only [Option.map_some']
    congr 1
    rw [List.map_map]
    conv_rhs => rw [show latin1Ignored nfkd s =
      String.mk (latin1Ignored nfkd s).data from rfl]
    congr 1
    rw [show (Char.ofNat ∘ Char.toNat) = id from
      funext (fun c => Char.ofNat_toNat c)]
    exact List.map_id _
  · intro b hb
    obtain ⟨c, hc, rfl⟩ := List.mem_map.mp hb
    exact h c hc

/-- Helper for `pySplit`: scan the characters, accumulating the current
word reversed in `acc`, emitting a word at each whitespace run boundary. -/
def splitWsAux : List Char → List Char → List (List Char)
  | [], acc => if acc = [] then [] else [acc.reverse]
  | c :: cs, acc =>
    if c.isWhitespace then
      if acc = [] then splitWsAux cs []
      else acc.reverse :: splitWsAux cs []
    else splitWsAux cs (c :: acc)

/-- Python `str.split()` with no separator: split on whitespace runs and
drop empty fragments. -/
def pySplit (s : String) : List String :=
  (splitWsAux s.data []).map String.mk

/-- The metrics of one loaded font, as the scripts observe them through
PIL: the rendered width of a single line of text, and the height of one
line.  The actual rasterizer is an external collaborator. -/
structure FontMetric where
  width : String → Nat
  lineHeight : Nat

/-- Height that `txt_wh` reports for a block of `lines` drawn with
`multiline spacing = 4` (PIL's default): `n` line heights plus `n - 1`
spacing gaps, `0` for no lines. -/
def blockH (M : FontMetric) (lines : List String) : Nat :=
  if lines = [] then 0
  else lines.length * M.lineHeight + (lines.length - 1) * 4

/-- Width that `txt_wh` reports for a block of `lines`: the widest line. -/
def blockW (M : FontMetric) (lines : List String) : Nat :=
  (lines.map M.width).foldr max 0

/-- The pixel-measured greedy wrap loop of `overlay` in `cli 27thMay.py`
(lines 154–164): accumulate words into `line` while the measured width of
`line + " " + w` stays ≤ `usable`; on overflow append the current line (if
non-empty) and start a new line with that word; finally append the last
line if non-empty.  `usable` is an `Int` because Python computes
`W - 2*left_margin - 2*pad`, which can be negative. -/
def wrapWords (measure : String → Nat) (usable : Int) :
    List String → List String → String → List String
  | [], lines, line => if line = "" then lines else lines ++ [line]
  | w :: ws, lines, line =>
    let test := if line = "" then w else line ++ " " ++ w
    if (measure test : Int) ≤ usable then
      wrapWords measure usable ws lines test
    else if line = "" then
      wrapWords measure usable ws lines w
    else
      wrapWords measure usable ws (lines ++ [line]) w

/-- `CAPTION_PCT = 10` in `cli 27thMay.py`. -/
def CAPTION_PCT : Nat := 10

/-- The wrap stage of `overlay` in `cli 27thMay.py` applied to the string
`safe` returned: `words = s.split()` then the greedy width-measured loop
with `usable_w = W - 2*left_margin - 2*pad = W - 2*40 - 2*24`. -/
def overlayWrapPost (M : FontMetric) (W : Nat) (s : String) : List String :=
  wrapWords M.width ((W : Int) - 2 * 40 - 2 * 24) (pySplit s) [] ""

/-- The wrapped caption lines computed by `overlay` in `cli 27thMay.py`:
`words = safe(caption).split()` then the greedy width-measured loop;
`none` when `safe` raises, in which case `overlay` raises before
wrapping anything. -/
def overlayWrapV38 (M : FontMetric) (nfkd : String → String) (W : Nat)
    (caption : String) : Option (List String) :=
  (safe nfkd caption).map (overlayWrapPost M W)

/-- A caption bounding box `(left, top, right, bottom)`, in the signed
pixel coordinates Python uses. -/
structure Box where
  left : Int
  top : Int
  right : Int
  bottom : Int
deriving DecidableEq

/-- The bubble rectangle arithmetic of `overlay` in `cli 27thMay.py`
(lines 165–180), as a function of the measured text block height `bh`:
`reserve_h = int(H * CAPTION_PCT / 100)`, the bubble of height
`band_h = bh + 2 * pad` is centred in the reserved bottom band
(`top = band_top + max(0, (reserve_h - band_h) // 2)`), and if it would
cross `H - floor_gap` it is slid up with its top clamped at 0; the
rectangle drawn is `(left_margin, top, W - left_margin, top + band_h)`
with `floor_gap = 20`, `left_margin = 40`, `pad = 24`. -/
def bubbleRectV38 (W H bh : Nat) : Box :=
  let reserve_h : Int := ((H * CAPTION_PCT / 100 : Nat) : Int)
  let band_top : Int := (H : Int) - reserve_h
  let band_h : Int := (bh : Int) + 2 * 24
  let top0 : Int := band_top + max 0 ((reserve_h - band_h).fdiv 2)
  let top : Int :=
    if top0 + band_h + 20 > (H : Int) then max 0 ((H : Int) - band_h - 20)
    else top0
  ⟨40, top, (W : Int) - 40, top + band_h⟩

/-- The caption bubble rectangle of `overlay` in `cli 27thMay.py` for the
string `safe` returned: the bubble arithmetic applied to the measured
height of the width-measured wrapped caption block. -/
def overlayBoxPost (M : FontMetric) (W H : Nat) (s : String) : Box :=
  bubbleRectV38 W H (blockH M (overlayWrapPost M W s))

/-- The caption bubble rectangle computed by `overlay` in `cli 27thMay.py`
(lines 143–183); `none` when `safe` raises on the caption, in which case
`overlay` raises before computing any box. -/
def overlayBoxV38 (M : FontMetric) (nfkd : String → String) (W H : Nat)
    (caption : String) : Option Box :=
  (safe nfkd caption).map (overlayBoxPost M W H)

/-- The caption panel rectangle of `overlay` in `cli_manual.py`
(lines 110–117), as a function of the measured wrap width `bw` and height
`bh`: `pad = 20`, `left = max(36, (W - bw)//2 - pad)`,
`right = min(W - 36, left + bw + 2*pad)`, `top = 36` for the top banner,
else randomly `20` or `H - bh - 2*pad - 20`, `bottom = top + bh + 2*pad`
(`right` and `bottom` written with `left`/`top` inlined). -/
def overlayBoxManualRect (W H bw bh : Nat) (tb dcsn : Bool) : Box :=
  { left := max 36 (((W : Int) - (bw : Int)).fdiv 2 - 20)
    top := if tb then 36 else if dcsn then 20
      else (H : Int) - (bh : Int) - 2 * 20 - 20
    right := min ((W : Int) - 36)
      (max 36 (((W : Int) - (bw : Int)).fdiv 2 - 20) + (bw : Int) + 2 * 20)
    bottom := (if tb then (36 : Int) else if dcsn then 20
      else (H : Int) - (bh : Int) - 2 * 20 - 20) + (bh : Int) + 2 * 20 }

/-- The caption panel rectangle computed by `overlay` in `cli_manual.py`:
the wrap is `textwrap.fill(safe(caption), max(1, (W-72)/avg))` (`tw` is
the external `textwrap.fill` at that budget, applied to the decoded
caption), `dcsn` injects `random.choice`; `none` when `safe` raises, in
which case `overlay` raises before computing any box. -/
def overlayBoxManual (M : FontMetric) (nfkd : String → String)
    (tw : String → List String) (W H : Nat) (caption : String)
    (tb dcsn : Bool) : Option Box :=
  (safe nfkd caption).map (fun s =>
    overlayBoxManualRect W H (blockW M (tw s)) (blockH M (tw s)) tb dcsn)

/-- A concrete font metric used for closed counterexamples: every
character 10 px wide, 20 px line height. -/
def M₀ : FontMetric := ⟨fun s => 10 * s.length, 20⟩

/-- A `textwrap` stand-in returning the text as one line: used only for
closed counterexamples and witnesses. -/
def tw₀ : String → List String := fun s => [s]

/-- C3 counterexample: on a 200 × 50 surface the caption "Hello"
(ASCII, so `safe` returns it unchanged) wraps to one line, the bubble is
68 px tall, sliding up clamps its top at 0, and its bottom (68) exceeds
both `H - floor_gap = 30` and the surface height 50 — the claimed bounds
fail. -/
theorem overlayBoxV38_violates_bounds :
    overlayBoxV38 M₀ id 200 50 "Hello" =
      some (overlayBoxPost M₀ 200 50 "Hello") ∧
    ¬ ((overlayBoxPost M₀ 200 50 "Hello").top ≥ 0 ∧
       (overlayBoxPost M₀ 200 50 "Hello").bottom ≤ (50 : Int) - 20 ∧
       (overlayBoxPost M₀ 200 50 "Hello").left ≥ 40 ∧
       (overlayBoxPost M₀ 200 50 "Hello").right ≤ (200 : Int) - 40 ∧
       (overlayBoxPost M₀ 200 50 "Hello").bottom ≤ (50 : Int)) := by
  decide

/-- Whenever the wrapped caption block (text height `bh` plus 2 × 24
padding) plus the 20 px floor gap fits in the surface height, the bubble
rectangle of `cli 27thMay.py` satisfies all the claimed bounds. -/
theorem bubbleRectV38_in_bounds (W H bh : Nat)
    (hfit : bh + 2 * 24 + 20 ≤ H) :
    (bubbleRectV38 W H bh).top ≥ 0 ∧
    (bubbleRectV38 W H bh).bottom ≤ (H : Int) - 20 ∧
    (bubbleRectV38 W H bh).left ≥ 40 ∧
    (bubbleRectV38 W H bh).right ≤ (W : Int) - 40 ∧
    0 ≤ (bubbleRectV38 W H bh).left ∧
    (bubbleRectV38 W H bh).right ≤ (W : Int) ∧
    (bubbleRectV38 W H bh).bottom ≤ (H : Int) := by
  unfold bubbleRectV38
  simp only [CAPTION_PCT] at *
  generalize hse : max (0 : Int)
      ((((H * 10 / 100 : Nat) : Int) - ((bh : Int) + 2 * 24)).fdiv 2) = slack
  have hs0 : 0 ≤ slack := hse ▸ le_max_left _ _
  have hmax : max (0 : Int) ((H : Int) - ((bh : Int) + 2 * 24) - 20) =
      (H : Int) - ((bh : Int) + 2 * 24) - 20 := max_eq_right (by omega)
  split
  · rw [hmax]
    refine ⟨by omega, by omega, by omega, by omega, by omega, by omega,
      by omega⟩
  · refine ⟨by omega, by omega, by omega, by omega, by omega, by omega,
      by omega⟩

/-- When the padded caption block is too tall for the floor-gap bound,
the bubble of `cli 27thMay.py` is slid up with its top clamped to 0, its
bottom lands exactly at the padded block height — past `H − floor_gap`,
but past `H` itself only when the padded block is taller than the
surface. -/
theorem bubbleRectV38_overflow (W H bh : Nat)
    (hover : (H : Int) < (bh : Int) + 2 * 24 + 20) :
    (bubbleRectV38 W H bh).top = 0 ∧
    (bubbleRectV38 W H bh).bottom = (bh : Int) + 2 * 24 ∧
    (H : Int) - 20 < (bubbleRectV38 W H bh).bottom := by
  unfold bubbleRectV38
  simp only [CAPTION_PCT] at *
  generalize hse : max (0 : Int)
      ((((H * 10 / 100 : Nat) : Int) - ((bh : Int) + 2 * 24)).fdiv 2) = slack
  have hs0 : 0 ≤ slack := hse ▸ le_max_left _ _
  have hmax : max (0 : Int) ((H : Int) - ((bh : Int) + 2 * 24) - 20) = 0 :=
    max_eq_left (by omega)
  split
  · rw [hmax]
    refine ⟨rfl, by omega, by omega⟩
  · rename_i hc
    exfalso
    omega

/-- When the measured wrap block fits every anchor (height `bh` plus the
2 × 20 paddings plus the worst-case 56 px of margins within `H`), the
`cli_manual.py` caption panel satisfies the claimed bounds for all three
placements; the side margins (36) hold unconditionally by the `max`/`min`
clamps. -/
theorem overlayBoxManualRect_in_bounds (W H bw bh : Nat) (tb dcsn : Bool)
    (hfit : bh + 2 * 20 + 56 ≤ H) :
    (overlayBoxManualRect W H bw bh tb dcsn).top ≥ 0 ∧
    (overlayBoxManualRect W H bw bh tb dcsn).bottom ≤ (H : Int) - 20 ∧
    (overlayBoxManualRect W H bw bh tb dcsn).left ≥ 36 ∧
    (overlayBoxManualRect W H bw bh tb dcsn).right ≤ (W : Int) - 36 ∧
    0 ≤ (overlayBoxManualRect W H bw bh tb dcsn).left ∧
    (overlayBoxManualRect W H bw bh tb dcsn).right ≤ (W : Int) ∧
    (overlayBoxManualRect W H bw bh tb dcsn).bottom ≤ (H : Int) := by
  have hL : (36 : Int) ≤ max 36 (((W : Int) - (bw : Int)).fdiv 2 - 20) :=
    le_max_left _ _
  have hR : min ((W : Int) - 36)
      (max 36 (((W : Int) - (bw : Int)).fdiv 2 - 20) + (bw : Int) + 2 * 20)
      ≤ (W : Int) - 36 := min_le_left _ _
  cases tb <;> cases dcsn <;>
    · simp only [overlayBoxManualRect, reduceIte]
      refine ⟨by omega, by omega, hL, hR, by omega, by omega, by omega⟩

/-- C3 (amended): for every caption on which `safe` returns, (1) whenever
the wrapped block height plus the 2 × 24 padding plus the 20 px floor gap
fits in the surface height, the `cli 27thMay.py` bubble satisfies
top ≥ 0, bottom ≤ H − floor_gap, left ≥ side_margin (40), right ≤
W − side_margin, and lies inside [0, W] × [0, H]; (2) when the padded
block does not fit, the top clamps to 0 and the bottom sits exactly at
the padded block height — past H − floor_gap, and past H only when the
padded block is taller than the surface; (3) for the `cli_manual.py`
overlay, left ≥ 36 and right ≤ W − 36 hold by the clamps, and whenever
the wrapped block fits every anchor (bh + 96 ≤ H) all three placements
also satisfy top ≥ 0, bottom ≤ H − 20 and containment.  (When `safe`
raises, `overlay` raises and no box exists.) -/
theorem overlay_caption_box_bounds (M : FontMetric)
    (nfkd : String → String) (tw : String → List String) (W H : Nat)
    (caption : String) (tb dcsn : Bool) :
    (∀ s, safe nfkd caption = some s →
      blockH M (overlayWrapPost M W s) + 2 * 24 + 20 ≤ H →
      overlayBoxV38 M nfkd W H caption = some (overlayBoxPost M W H s) ∧
      (overlayBoxPost M W H s).top ≥ 0 ∧
      (overlayBoxPost M W H s).bottom ≤ (H : Int) - 20 ∧
      (overlayBoxPost M W H s).left ≥ 40 ∧
      (overlayBoxPost M W H s).right ≤ (W : Int) - 40 ∧
      0 ≤ (overlayBoxPost M W H s).left ∧
      (overlayBoxPost M W H s).right ≤ (W : Int) ∧
      (overlayBoxPost M W H s).bottom ≤ (H : Int)) ∧
    (∀ s, safe nfkd caption = some s →
      (H : Int) < (blockH M (overlayWrapPost M W s) : Int) + 2 * 24 + 20 →
      (overlayBoxPost M W H s).top = 0 ∧
      (overlayBoxPost M W H s).bottom =
        (blockH M (overlayWrapPost M W s) : Int) + 2 * 24 ∧
      (H : Int) - 20 < (overlayBoxPost M W H s).bottom) ∧
    (∀ s, safe nfkd caption = some s →
      blockH M (tw s) + 2 * 20 + 56 ≤ H →
      overlayBoxManual M nfkd tw W H caption tb dcsn =
        some (overlayBoxManualRect W H (blockW M (tw s))
          (blockH M (tw s)) tb dcsn) ∧
      (overlayBoxManualRect W H (blockW M (tw s)) (blockH M (tw s))
        tb dcsn).top ≥ 0 ∧
      (overlayBoxManualRect W H (blockW M (tw s)) (blockH M (tw s))
        tb dcsn).bottom ≤ (H : Int) - 20 ∧
      (overlayBoxManualRect W H (blockW M (tw s)) (blockH M (tw s))
        tb dcsn).left ≥ 36 ∧
      (overlayBoxManualRect W H (blockW M (tw s)) (blockH M (tw s))
        tb dcsn).right ≤ (W : Int) - 36 ∧
      0 ≤ (overlayBoxManualRect W H (blockW M (tw s)) (blockH M (tw s))
        tb dcsn).left ∧
      (overlayBoxManualRect W H (blockW M (tw s)) (blockH M (tw s))
        tb dcsn).right ≤ (W : Int) ∧
      (overlayBoxManualRect W H (blockW M (tw s)) (blockH M (tw s))
        tb dcsn).bottom ≤ (H : Int)) := by
  refine ⟨?_, ?_, ?_⟩
  · intro s hs hfit
    refine ⟨by simp [overlayBoxV38, hs], ?_⟩
    exact bubbleRectV38_in_bounds W H (blockH M (overlayWrapPost M W s))
      hfit
  · intro s hs hover
    exact bubbleRectV38_overflow W H (blockH M (overlayWrapPost M W s))
      hover
  · intro s hs hfit
    refine ⟨by simp [overlayBoxManual, hs], ?_⟩
    exact overlayBoxManualRect_in_bounds W H (blockW M (tw s))
      (blockH M (tw s)) tb dcsn hfit

/-- Witness for the amended C3: the three conjuncts applied at concrete
captions and surfaces (the fitting case at H = 500, the overflow case at
H = 50, and the `cli_manual` case at H = 500). -/
theorem overlay_caption_box_bounds_witness :
    safe id "Hello" = some "Hello" ∧
    (blockH M₀ (overlayWrapPost M₀ 200 "Hello") + 2 * 24 + 20 ≤ 500) ∧
    (overlayBoxPost M₀ 200 500 "Hello").bottom ≤ (500 : Int) - 20 ∧
    ((50 : Int) <
      (blockH M₀ (overlayWrapPost M₀ 200 "Hello") : Int) + 2 * 24 + 20) ∧
    (50 : Int) - 20 < (overlayBoxPost M₀ 200 50 "Hello").bottom ∧
    (blockH M₀ (tw₀ "Hello") + 2 * 20 + 56 ≤ 500) ∧
    (overlayBoxManualRect 200 500 (blockW M₀ (tw₀ "Hello"))
      (blockH M₀ (tw₀ "Hello")) true false).bottom ≤ (500 : Int) - 20 := by
  refine ⟨by decide, by decide, ?_, by decide, ?_, by decide, ?_⟩
  · exact ((overlay_caption_box_bounds M₀ id tw₀ 200 500 "Hello" true
      false).1 "Hello" (by decide) (by decide)).2.2.1
  · exact ((overlay_caption_box_bounds M₀ id tw₀ 200 50 "Hello" true
      false).2.1 "Hello" (by decide) (by decide)).2.2
  · exact ((overlay_caption_box_bounds M₀ id tw₀ 200 500 "Hello" true
      false).2.2 "Hello" (by decide) (by decide)).2.2.1

/-- C4 counterexample: with the 10 px/char metric and `W = 200`
(`usable = 72`), the ASCII caption "abcdefgh" passes through `safe`
unchanged and its single word measures 80 > 72; the greedy loop keeps it
as a line anyway (the overflow branch starts a new line with the word
without re-measuring it), so re-measuring the produced lines fails. -/
theorem overlayWrapV38_line_too_wide :
    overlayWrapV38 M₀ id 200 "abcdefgh" = some ["abcdefgh"] ∧
    ¬ ((M₀.width "abcdefgh" : Int) ≤ (200 : Int) - 2 * 40 - 2 * 24) := by
  decide

/-- Invariant of the greedy wrap loop: if every remaining word fits the
usable width on its own, every accumulated line fits, and the current line
is empty or fits, then every produced line fits. -/
theorem wrapWords_all_fit (measure : String → Nat) (usable : Int) :
    ∀ ws lines line,
      (∀ w ∈ ws, (measure w : Int) ≤ usable) →
      (∀ l ∈ lines, (measure l : Int) ≤ usable) →
      (line = "" ∨ (measure line : Int) ≤ usable) →
      ∀ l ∈ wrapWords measure usable ws lines line,
        (measure l : Int) ≤ usable := by
  intro ws
  induction ws with
  | nil =>
    intro lines line _ hlines hline l hl
    unfold wrapWords at hl
    split at hl
    · exact hlines l hl
    · rcases List.mem_append.mp hl with h | h
      · exact hlines l h
      · rcases List.mem_singleton.mp h with rfl
        rcases hline with h | h
        · simp [h] at *
        · exact h
  | cons w ws ih =>
    intro lines line hws hlines hline l hl
    have hw : (measure w : Int) ≤ usable := hws w (List.mem_cons_self _ _)
    have hws' : ∀ v ∈ ws, (measure v : Int) ≤ usable :=
      fun v hv => hws v (List.mem_cons_of_mem _ hv)
    unfold wrapWords at hl
    split at hl
    · rename_i he
      simp only [] at hl
      split at hl
      · rename_i hfit2
        exact ih lines w hws' hlines (Or.inr hfit2) l hl
      · exact ih lines w hws' hlines (Or.inr hw) l hl
    · rename_i he
      simp only [] at hl
      split at hl
      · rename_i hfit2
        exact ih lines _ hws' hlines (Or.inr hfit2) l hl
      · refine ih (lines ++ [line]) w hws' ?_ (Or.inr hw) l hl
        intro u hu
        rcases List.mem_append.mp hu with h | h
        · exact hlines u h
        · rcases List.mem_singleton.mp h with rfl
          rcases hline with h | h
          · exact absurd h he
          · exact h

/-- C4 (amended): for every metric and every caption on which `safe`
returns a string `s`, if each single word of `s` measures within the
usable width `W − 2·40 − 2·24`, the greedy width-measured wrap of
`overlay` (`cli 27thMay.py`, lines 154–164) never produces a line whose
measured rendered width exceeds that usable width: re-measuring every
wrapped line passes. -/
theorem overlayWrapV38_lines_fit (M : FontMetric) (nfkd : String → String)
    (W : Nat) (caption s : String)
    (hs : safe nfkd caption = some s)
    (hwords : ∀ w ∈ pySplit s,
        (M.width w : Int) ≤ (W : Int) - 2 * 40 - 2 * 24) :
    overlayWrapV38 M nfkd W caption = some (overlayWrapPost M W s) ∧
    ∀ l ∈ overlayWrapPost M W s,
      (M.width l : Int) ≤ (W : Int) - 2 * 40 - 2 * 24 := by
  refine ⟨by simp [overlayWrapV38, hs], ?_⟩
  intro l hl
  exact wrapWords_all_fit M.width ((W : Int) - 2 * 40 - 2 * 24)
    (pySplit s) [] "" hwords (by simp) (Or.inl rfl) l hl

/-- Witness for the amended C4 at a concrete caption whose words all fit. -/
theorem overlayWrapV38_lines_fit_witness :
    safe id "hi there" = some "hi there" ∧
    (∀ w ∈ pySplit "hi there",
        (M₀.width w : Int) ≤ (200 : Int) - 2 * 40 - 2 * 24) ∧
    (overlayWrapV38 M₀ id 200 "hi there" =
        some (overlayWrapPost M₀ 200 "hi there") ∧
      ∀ l ∈ overlayWrapPost M₀ 200 "hi there",
        (M₀.width l : Int) ≤ (200 : Int) - 2 * 40 - 2 * 24) :=
  ⟨by decide, by decide,
   overlayWrapV38_lines_fit M₀ id 200 "hi there" "hi there" (by decide)
     (by decide)⟩

/-- `COVER_MAX_PT = 48` in `cli.py`. -/
def COVER_MAX_PT : Nat := 48

/-- `COVER_MIN_PT = 20` in `cli.py`. -/
def COVER_MIN_PT : Nat := 20

/-- The auto-fit loop of `make_cover` in `cli.py` (lines 145–152):
`while size >= COVER_MIN_PT`, recompute the font, wrap and measurement at
the current size; `break` when the banner test passes
(`h <= COVER_BANNER_H - 40 and w <= W - 2*COVER_SIDE_PAD`), else
`size -= 2`.  When the loop exits without a fit the `font`/`wrapped`
artifacts last computed — those of the minimum size 20 — are the ones
drawn, so the effective size is 20.  `fits size` abstracts the banner
test at a given font size; it depends on the external font rasterizer. -/
def coverFitSize (fits : Nat → Bool) (size : Nat) : Nat :=
  if h : 20 ≤ size then
    if fits size then size else coverFitSize fits (size - 2)
  else 20
termination_by size
decreasing_by omega

/-- The auto-fit result size never drops below the minimum font size. -/
theorem coverFitSize_ge (fits : Nat → Bool) :
    ∀ n, 20 ≤ coverFitSize fits n := by
  intro n
  induction n using Nat.strong_induction_on with
  | _ n ih =>
    rw [coverFitSize]
    split
    · split
      · omega
      · exact ih (n - 2) (by omega)
    · omega

/-- The auto-fit result size never exceeds the starting size (nor 20). -/
theorem coverFitSize_le (fits : Nat → Bool) :
    ∀ n, coverFitSize fits n ≤ max 20 n := by
  intro n
  induction n using Nat.strong_induction_on with
  | _ n ih =>
    rw [coverFitSize]
    split
    · split
      · exact le_max_right _ _
      · exact le_trans (ih (n - 2) (by omega))
          (max_le_max (le_refl 20) (by omega))
    · exact le_max_left _ _

/-- The auto-fit result either passes the banner test or is the minimum
size. -/
theorem coverFitSize_fits_or_min (fits : Nat → Bool) :
    ∀ n, fits (coverFitSize fits n) = true ∨ coverFitSize fits n = 20 := by
  intro n
  induction n using Nat.strong_induction_on with
  | _ n ih =>
    rw [coverFitSize]
    split
    · split
      · rename_i hf
        exact Or.inl hf
      · exact ih (n - 2) (by omega)
    · exact Or.inr rfl

/-- Every step-aligned size above the auto-fit result failed the banner
test: the loop really shrinks from the top in steps of 2 until the first
fit. -/
theorem coverFitSize_maximal (fits : Nat → Bool) :
    ∀ n s, coverFitSize fits n < s → s ≤ n → (n - s) % 2 = 0 →
      fits s = false := by
  intro n
  induction n using Nat.strong_induction_on with
  | _ n ih =>
    intro s h1 h2 h3
    rw [coverFitSize] at h1
    split at h1
    · split at h1
      · omega
      · rename_i hn hfn
        by_cases hsn : s = n
        · exact hsn ▸ (Bool.not_eq_true _).mp hfn
        · exact ih (n - 2) (by omega) s h1 (by omega) (by omega)
    · rename_i hn
      have h20 := coverFitSize_ge fits n
      omega

/-- The auto-fit stage of `make_cover` in `cli.py` including its string
preprocessing: every loop iteration evaluates
`textwrap.fill(safe(title), ...)`, so when `safe` raises (strict UTF-8
decode failure) the very first iteration raises and `make_cover` fails
with a `UnicodeDecodeError` instead of producing any layout; when `safe`
returns, the loop runs on the decoded title and settles on
`coverFitSize fits COVER_MAX_PT` (`fits` abstracts the banner test for
that title at each size, via the external font). -/
def make_cover_fit (nfkd : String → String) (fits : Nat → Bool)
    (title : String) : Option Nat :=
  match safe nfkd title with
  | none => none
  | some _ => some (coverFitSize fits COVER_MAX_PT)

/-- C5 counterexample: the NFKD-invariant title "5×3" survives the
Latin-1 ignore-encode as bytes `35 D7 33`, which are not valid UTF-8
(`D7` is a lead byte with no continuation), so `safe` raises and the
auto-fit fails instead of accepting the minimum-size result — for this
title the loop never runs at all. -/
theorem make_cover_raises_on_title :
    safe id "5×3" = none ∧
    make_cover_fit id (fun _ => false) "5×3" = none := by
  decide

/-- C5 (corrected): the auto-fit loop itself, for every banner-fit
behaviour, terminates at a size between `COVER_MIN_PT = 20` and
`COVER_MAX_PT = 48`; every step-of-2 size above the result failed the fit
test (it shrinks in fixed steps until the wrapped text fits); the result
either fits the banner box or is the minimum size; if no size fits, the
minimum-size artifacts are accepted.  But this holds only for titles on
which `safe` returns: when `safe` raises, `make_cover` fails on its first
iteration instead of accepting any result (see the counterexample). -/
theorem make_cover_autofit (nfkd : String → String) (fits : Nat → Bool)
    (title : String) :
    (∀ s, safe nfkd title = some s →
      make_cover_fit nfkd fits title =
        some (coverFitSize fits COVER_MAX_PT)) ∧
    (safe nfkd title = none → make_cover_fit nfkd fits title = none) ∧
    COVER_MIN_PT ≤ coverFitSize fits COVER_MAX_PT ∧
    coverFitSize fits COVER_MAX_PT ≤ COVER_MAX_PT ∧
    (fits (coverFitSize fits COVER_MAX_PT) = true ∨
      coverFitSize fits COVER_MAX_PT = COVER_MIN_PT) ∧
    ((∀ s, fits s = false) → coverFitSize fits COVER_MAX_PT = COVER_MIN_PT) ∧
    (∀ s, coverFitSize fits COVER_MAX_PT < s → s ≤ COVER_MAX_PT →
      (COVER_MAX_PT - s) % 2 = 0 → fits s = false) := by
  refine ⟨?_, ?_, ?_⟩
  · intro s hs
    simp [make_cover_fit, hs]
  · intro hs
    simp [make_cover_fit, hs]
  · simp only [COVER_MIN_PT, COVER_MAX_PT]
    refine ⟨coverFitSize_ge fits 48, ?_, coverFitSize_fits_or_min fits 48,
      ?_, coverFitSize_maximal fits 48⟩
    · have := coverFitSize_le fits 48
      omega
    · intro hnone
      rcases coverFitSize_fits_or_min fits 48 with h | h
      · rw [hnone] at h
        exact absurd h (by simp)
      · exact h

/-- Witness for C5: for an ASCII title the auto-fit returns a size; with
a fit test that always fails, that size is the minimum font size, and the
step-2 maximality holds at the concrete size 30. -/
theorem make_cover_autofit_witness :
    make_cover_fit id (fun _ => false) "Moon Trip" =
      some (coverFitSize (fun _ => false) COVER_MAX_PT) ∧
    coverFitSize (fun _ => false) COVER_MAX_PT = COVER_MIN_PT ∧
    (fun (_ : Nat) => false) 30 = false := by
  have h := make_cover_autofit id (fun _ => false) "Moon Trip"
  refine ⟨h.1 "Moon Trip" (by decide), h.2.2.2.2.2.1 (fun _ => rfl), ?_⟩
  refine h.2.2.2.2.2.2 30 ?_ (by norm_num [COVER_MAX_PT])
    (by norm_num [COVER_MAX_PT])
  rw [h.2.2.2.2.2.1 (fun _ => rfl)]
  norm_num [COVER_MIN_PT]

/-- `PIL.Image.convert`: allocates a fresh image with the same dimensions
and (as far as these scripts observe colours) the same pixel contents;
mode/alpha bookkeeping is not represented. -/
def convertImg (img : Img) : Img :=
  ⟨img.width, img.height, img.px⟩

/-- `PIL.Image.resize(size, LANCZOS)`: a fresh image of the target size
whose pixels sample the source.  The LANCZOS kernel is abstracted to
coordinate scaling; no theorem below observes resampled pixel values. -/
def resizeImg (size : Nat × Nat) (img : Img) : Img :=
  ⟨size.1, size.2, fun x y =>
    img.px (x * img.width / size.1) (y * img.height / size.2)⟩

/-- One channel of PIL alpha compositing, `(old·(255−a) + new·a) / 255`
(exact PIL rounding abstracted; only gross colour change is observed). -/
def blendChannel (o n a : Nat) : Nat := (o * (255 - a) + n * a) / 255

/-- Alpha-blend a new colour over an old one at opacity `a`. -/
def blendColor (o n : Color) (a : Nat) : Color :=
  (blendChannel o.1 n.1 a, blendChannel o.2.1 n.2.1 a,
   blendChannel o.2.2 n.2.2 a)

/-- Blend a translucent filled rectangle `[l, r) × [t, b)` over an image:
the model of pasting/compositing the caption panel (rounded corners and
the Gaussian blur of the panel edges are abstracted; no theorem observes
pixels near the panel edge). -/
def alphaBlendRect (l t r b : Int) (fill : Color) (a : Nat) (img : Img) :
    Img :=
  ⟨img.width, img.height, fun x y =>
    if l ≤ (x : Int) ∧ (x : Int) < r ∧ t ≤ (y : Int) ∧ (y : Int) < b then
      blendColor (img.px x y) fill a
    else img.px x y⟩

/-- The external glyph rasterizer: for a text block drawn at an anchor
with a fill colour, the colour it contributes to pixel `(x, y)`, if any.
Fonts are loaded from the environment, so this is a parameter. -/
structure Raster where
  draws : String → (Int × Int) → Color → Nat → Nat → Option Color

/-- `ImageDraw.text` / `multiline_text`: draw a text block onto the image
through the external rasterizer; pixels the glyphs do not cover are
unchanged. -/
def drawTextImg (R : Raster) (txt : String) (pos : Int × Int) (fill : Color)
    (img : Img) : Img :=
  ⟨img.width, img.height, fun x y =>
    (R.draws txt pos fill x y).getD (img.px x y)⟩

/-- `prep` / `_prep`: `convert("RGB").resize(RAW_SIZE, LANCZOS)
.resize(PAGE_SIZE, LANCZOS)` — the two-step resample down to the physical
page size. -/
def prepImg (img : Img) : Img :=
  resizeImg PAGE_SIZE (resizeImg RAW_SIZE (convertImg img))

/-- `overlay(img, pg)` from `cli.py` (lines 171–188).  The first statement
is `img = img.convert("RGBA")`, so every subsequent paste/draw targets the
fresh converted copy, never the caller's image.  `tw` is the external
`textwrap.fill` at the computed character budget (the budget divides by
the average glyph width of the external font), `decision` injects
`random.random() < 0.5`, `R` the rasterizer, `M` the body-font metrics.
The body text drawn is written via `latin1Ignored`, the characters the
`safe` pipeline keeps: this embeds the drawing path.  When the strict
decode of `safe` raises instead, `overlay` raises while computing `body`,
before any drawing — so the caller's image is untouched either way, which
is all the theorems below observe of this function. -/
def overlayCli (R : Raster) (M : FontMetric) (nfkd : String → String)
    (tw : String → List String) (decision : Bool) (img : Img)
    (text : String) : Img :=
  let im := convertImg img
  let W : Int := im.width
  let H : Int := im.height
  let body := tw (latin1Ignored nfkd text)
  let b_w : Int := blockW M body
  let b_h : Int := blockH M body
  let panel_w : Int := min (b_w + 2 * 36) (W - 2 * 36)
  let card_h : Int := 20 + b_h + 20
  let top : Int := if decision then 12 else H - card_h - 12
  let im2 := alphaBlendRect 36 top (36 + panel_w) (top + card_h)
    (255, 255, 255) 235 im
  let im3 := drawTextImg R (String.intercalate "\n" body) (2 * 36, top + 20)
    (20, 20, 120) im2
  convertImg im3

/-- `overlay(img, caption, top_banner)` from `cli_manual.py`
(lines 104–125).  Again `img = img.convert("RGBA")` comes first, so the
caller's image is never drawn on.  `tw` is the external `textwrap.fill`
at the computed budget, `decision` injects `random.choice` between the
top (20) and bottom anchors.  As in `overlayCli`, the caption is written
via `latin1Ignored` (the drawing path); a raising `safe` aborts before
any drawing, leaving the caller's image untouched either way. -/
def overlayManual (R : Raster) (M : FontMetric) (nfkd : String → String)
    (tw : String → List String) (decision : Bool) (img : Img)
    (caption : String) (top_banner : Bool) : Img :=
  let im := convertImg img
  let W : Int := im.width
  let H : Int := im.height
  let wrapped := tw (latin1Ignored nfkd caption)
  let bw : Int := blockW M wrapped
  let bh : Int := blockH M wrapped
  let pad : Int := 20
  let left : Int := max 36 ((W - bw).fdiv 2 - pad)
  let right : Int := min (W - 36) (left + bw + 2 * pad)
  let top : Int := if top_banner then 36
    else if decision then 20 else H - bh - 2 * pad - 20
  let bottom : Int := top + bh + 2 * pad
  let im2 := alphaBlendRect left top right bottom (255, 255, 255) 235 im
  let im3 := drawTextImg R (String.intercalate "\n" wrapped)
    (left + pad, top + pad) (20, 20, 120) im2
  convertImg im3

/-- `overlay(img, pg)` from `cli stable working.py` (lines 353–361):
`img.paste(mask, (0, H-box), mask)` pastes the translucent caption band
directly onto the caller's image and `ImageDraw.Draw(img)` draws the
title and wrapped text onto that same image; the function returns the
very object it received.  `tw` is the external `textwrap.wrap(t, 38)`.
The text is written via `latin1Ignored` (the drawing path of `safe`);
note the paste precedes the `safe` calls in the source, so even when the
strict decode raises, the caller's image has already been mutated by the
paste — the mutation the theorems below observe. -/
def overlayStable (R : Raster) (nfkd : String → String)
    (tw : String → List String) (img : Img) (title text : String) : Img :=
  let W : Int := img.width
  let H : Int := img.height
  let box : Int := ((img.height * 28 / 100 : Nat) : Int)
  let im1 := alphaBlendRect 0 (H - box) W H (255, 255, 255) 230 img
  let im2 := drawTextImg R (latin1Ignored nfkd title) (24, H - box + 12)
    (0, 0, 0) im1
  let im3 := drawTextImg R
    (String.intercalate "\n" (tw (latin1Ignored nfkd text)))
    (24, H - box + 46) (0, 0, 0) im2
  im3

/-- Heap view of one call to `overlay` in `cli.py`: the pair of the
returned surface and the caller's image after the call.  `convert`
allocates, so the caller's image is returned unchanged. -/
def overlayCliCall (R : Raster) (M : FontMetric) (nfkd : String → String)
    (tw : String → List String) (decision : Bool) (img : Img)
    (text : String) : Img × Img :=
  (overlayCli R M nfkd tw decision img text, img)

/-- Heap view of one call to `overlay` in `cli_manual.py`: returned
surface plus the caller's image after the call. -/
def overlayManualCall (R : Raster) (M : FontMetric) (nfkd : String → String)
    (tw : String → List String) (decision : Bool) (img : Img)
    (caption : String) (top_banner : Bool) : Img × Img :=
  (overlayManual R M nfkd tw decision img caption top_banner, img)

/-- Heap view of one call to `overlay` in `cli stable working.py`: the
paste and the draws hit the caller's image, and the same object is
returned, so after the call the caller's image equals the result. -/
def overlayStableCall (R : Raster) (nfkd : String → String)
    (tw : String → List String) (img : Img) (title text : String) :
    Img × Img :=
  (overlayStable R nfkd tw img title text,
   overlayStable R nfkd tw img title text)

/-- A rasterizer that contributes no pixels (an environment whose font
draws nothing): used only for closed counterexamples. -/
def R₀ : Raster := ⟨fun _ _ _ _ _ => none⟩

/-- A flat mid-grey 640 × 960 test image. -/
def gray100 : Img := imageNew (640, 960) (100, 100, 100)

/-- C8 counterexample: the `cli stable working.py` overlay mutates its
input in place.  On a flat grey (100,100,100) image, after the call the
caller's image has pixel (0, 959) blended with the 230-alpha white band
to (239,239,239) — the input was not left intact, so `overlay` is not a
pure transform there. -/
theorem overlayStable_mutates_input :
    ¬ ((overlayStableCall R₀ id tw₀ gray100 "t" "x").2.px 0 959 =
        gray100.px 0 959) := by
  decide

/-- C8 (amended): the `overlay` of `cli.py` and the `overlay` of
`cli_manual.py` first rebind `img` to `img.convert("RGBA")`, a freshly
allocated copy, so they return a new surface and leave the caller's image
unchanged for every rasterizer, metric, wrap, placement decision, image
and caption; the `cli stable working.py` overlay instead pastes and draws
on the caller's image and hands the same (now modified) object back. -/
theorem overlay_purity (R : Raster) (M : FontMetric)
    (nfkd : String → String) (tw : String → List String) (decision : Bool)
    (img : Img) (text : String) (tb : Bool) :
    (overlayCliCall R M nfkd tw decision img text).2 = img ∧
    (overlayManualCall R M nfkd tw decision img text tb).2 = img ∧
    (overlayStableCall R nfkd tw img text text).2 =
      overlayStable R nfkd tw img text text := by
  exact ⟨rfl, rfl, rfl⟩

/-- `COVER_BANNER_H = 180` in `cli.py`. -/
def COVER_BANNER_H : Nat := 180

/-- `COVER_SIDE_PAD = 60` in `cli.py`. -/
def COVER_SIDE_PAD : Nat := 60

/-- The banner test of the `make_cover` auto-fit loop at a given size:
`h <= COVER_BANNER_H - 40 and w <= W - 2*COVER_SIDE_PAD`, where `w`/`h`
measure `textwrap.fill(safe(title), chars(size))` in the size-`size` font
(`twFill`/`Mf` are the external wrap and font-metric collaborators). -/
def coverFitsTest (Mf : Nat → FontMetric) (twFill : Nat → List String)
    (W : Nat) (size : Nat) : Bool :=
  decide (blockH (Mf size) (twFill size) ≤ COVER_BANNER_H - 40 ∧
          blockW (Mf size) (twFill size) ≤ W - 2 * COVER_SIDE_PAD)

/-- The title-drawing loop of `make_cover`: draw each wrapped line centred
(`(W - lw) // 2`), advancing `y` by the line height plus
`COVER_LINE_SPACING = 8`. -/
def drawCoverLines (R : Raster) (M : FontMetric) (W : Nat) :
    List String → Int → Img → Img
  | [], _, img => img
  | line :: rest, y, img =>
    let lw : Int := M.width line
    let img2 := drawTextImg R line (((W : Int) - lw).fdiv 2, y)
      (20, 20, 120) img
    drawCoverLines R M W rest (y + (M.lineHeight : Int) + 8) img2

/-- `make_cover(title, lock)` from `cli.py` (lines 140–163):
`_prep(_imagen(prompt)).convert("RGBA")`, the auto-fit loop choosing the
font size, the blurred white banner cloud over the top `COVER_BANNER_H`
rows, the centred title lines, then `convert("RGB")`. -/
def make_cover_cli (R : Raster) (Mf : Nat → FontMetric)
    (twFill : Nat → List String) (beh : Behaviour) : Img :=
  let img := convertImg (prepImg (imagenCliRaw beh))
  let W := img.width
  let size := coverFitSize (coverFitsTest Mf twFill W) COVER_MAX_PT
  let wrapped := twFill size
  let h := blockH (Mf size) wrapped
  let img1 := alphaBlendRect 0 0 (W : Int) (COVER_BANNER_H : Int)
    (255, 255, 255) 230 img
  let y0 : Int := (((COVER_BANNER_H : Nat) : Int) - (h : Int)).fdiv 2
  let img2 := drawCoverLines R (Mf size) W wrapped y0 img1
  convertImg img2

/-- The page loop of `build_pdf` in `cli.py` (lines 197–203), starting at
`enumerate(pages, 1)`: page `i` is
`overlay(make_page_image(pg, lock), pg)` with
`make_page_image = _prep(_imagen(prompt))`; `Beh i` is the service
behaviour seen by page `i`, `dec i` its random placement decision. -/
def renderPagesCli (R : Raster) (M : FontMetric) (nfkd : String → String)
    (tw : String → List String) (Beh : Nat → Behaviour)
    (dec : Nat → Bool) : Nat → List String → List Img
  | _, [] => []
  | i, pg :: rest =>
    overlayCli R M nfkd tw (dec i) (prepImg (imagenCliRaw (Beh i))) pg ::
      renderPagesCli R M nfkd tw Beh dec (i + 1) rest

/-- `build_pdf(pages, title, lock)` from `cli.py` (lines 191–206), as the
ordered list of full-bleed page images placed into the PDF: first the
cover, then one composited image per input page in input order. -/
def build_pdf_cli (R : Raster) (Mf : Nat → FontMetric)
    (twFill : Nat → List String) (M : FontMetric) (nfkd : String → String)
    (tw : String → List String) (covBeh : Behaviour) (Beh : Nat → Behaviour)
    (dec : Nat → Bool) (pages : List String) : List Img :=
  make_cover_cli R Mf twFill covBeh ::
    renderPagesCli R M nfkd tw Beh dec 1 pages

theorem convertImg_width (img : Img) : (convertImg img).width = img.width :=
  rfl

theorem convertImg_height (img : Img) :
    (convertImg img).height = img.height := rfl

theorem prepImg_dims (img : Img) :
    (prepImg img).width = 595 ∧ (prepImg img).height = 842 := ⟨rfl, rfl⟩

theorem overlayCli_dims (R : Raster) (M : FontMetric)
    (nfkd : String → String) (tw : String → List String) (decision : Bool)
    (img : Img) (text : String) :
    (overlayCli R M nfkd tw decision img text).width = img.width ∧
    (overlayCli R M nfkd tw decision img text).height = img.height :=
  ⟨rfl, rfl⟩

theorem drawCoverLines_dims (R : Raster) (M : FontMetric) (W : Nat) :
    ∀ lines y img, (drawCoverLines R M W lines y img).width = img.width ∧
      (drawCoverLines R M W lines y img).height = img.height := by
  intro lines
  induction lines with
  | nil => intro y img; exact ⟨rfl, rfl⟩
  | cons line rest ih =>
    intro y img
    exact ih _ _

theorem make_cover_cli_dims (R : Raster) (Mf : Nat → FontMetric)
    (twFill : Nat → List String) (beh : Behaviour) :
    (make_cover_cli R Mf twFill beh).width = 595 ∧
    (make_cover_cli R Mf twFill beh).height = 842 := by
  unfold make_cover_cli
  simp only [convertImg_width, convertImg_height]
  constructor
  · rw [(drawCoverLines_dims _ _ _ _ _ _).1]
    rfl
  · rw [(drawCoverLines_dims _ _ _ _ _ _).2]
    rfl

theorem renderPagesCli_get (R : Raster) (M : FontMetric)
    (nfkd : String → String) (tw : String → List String)
    (Beh : Nat → Behaviour) (dec : Nat → Bool) :
    ∀ pages k i, (renderPagesCli R M nfkd tw Beh dec k pages).get? i =
      (pages.get? i).map (fun pg =>
        overlayCli R M nfkd tw (dec (k + i))
          (prepImg (imagenCliRaw (Beh (k + i)))) pg) := by
  intro pages
  induction pages with
  | nil => intro k i; simp [renderPagesCli]
  | cons pg rest ih =>
    intro k i
    cases i with
    | zero => simp [renderPagesCli]
    | succ j =>
      have hidx : k + (j + 1) = (k + 1) + j := by omega
      simp only [renderPagesCli, List.get?_cons_succ, hidx]
      exact ih (k + 1) j

theorem renderPagesCli_dims (R : Raster) (M : FontMetric)
    (nfkd : String → String) (tw : String → List String)
    (Beh : Nat → Behaviour) (dec : Nat → Bool) :
    ∀ pages k img, img ∈ renderPagesCli R M nfkd tw Beh dec k pages →
      img.width = 595 ∧ img.height = 842 := by
  intro pages
  induction pages with
  | nil => intro k img h; simp [renderPagesCli] at h
  | cons pg rest ih =>
    intro k img h
    rcases List.mem_cons.mp h with h | h
    · subst h
      exact ⟨rfl, rfl⟩
    · exact ih (k + 1) img h

theorem renderPagesCli_length (R : Raster) (M : FontMetric)
    (nfkd : String → String) (tw : String → List String)
    (Beh : Nat → Behaviour) (dec : Nat → Bool) :
    ∀ pages k, (renderPagesCli R M nfkd tw Beh dec k pages).length =
      pages.length := by
  intro pages
  induction pages with
  | nil => intro k; rfl
  | cons pg rest ih =>
    intro k
    simp [renderPagesCli, ih (k + 1)]

/-- C6: for every service behaviour, rasterizer, metric and input page
sequence, the assembled document of `build_pdf` (`cli.py`) has the cover
at ordinal 0, then exactly the input pages strictly in input order (page
`i` of the input is document entry `i + 1`), and every page image in the
document — cover included — has the configured physical page size
`PAGE_SIZE = (595, 842)`, because every surface passes through `_prep`'s
two-step resample. -/
theorem build_pdf_cli_assembly (R : Raster) (Mf : Nat → FontMetric)
    (twFill : Nat → List String) (M : FontMetric) (nfkd : String → String)
    (tw : String → List String) (covBeh : Behaviour) (Beh : Nat → Behaviour)
    (dec : Nat → Bool) (pages : List String) :
    (build_pdf_cli R Mf twFill M nfkd tw covBeh Beh dec pages).length =
      pages.length + 1 ∧
    (build_pdf_cli R Mf twFill M nfkd tw covBeh Beh dec pages).get? 0 =
      some (make_cover_cli R Mf twFill covBeh) ∧
    (∀ i, (build_pdf_cli R Mf twFill M nfkd tw covBeh Beh dec
        pages).get? (i + 1) =
      (pages.get? i).map (fun pg =>
        overlayCli R M nfkd tw (dec (i + 1))
          (prepImg (imagenCliRaw (Beh (i + 1)))) pg)) ∧
    (∀ img ∈ build_pdf_cli R Mf twFill M nfkd tw covBeh Beh dec pages,
      img.width = PAGE_SIZE.1 ∧ img.height = PAGE_SIZE.2) := by
  refine ⟨?_, rfl, ?_, ?_⟩
  · simp [build_pdf_cli, renderPagesCli_length]
  · intro i
    show (renderPagesCli R M nfkd tw Beh dec 1 pages).get? i = _
    rw [renderPagesCli_get, Nat.add_comm 1 i]
  · intro img h
    rcases List.mem_cons.mp h with h | h
    · subst h
      exact make_cover_cli_dims R Mf twFill covBeh
    · exact renderPagesCli_dims R M nfkd tw Beh dec pages 1 img h

/-- Witness for C6 at a concrete one-page input: the document has two
pages and its first member (the cover) has the physical page size. -/
theorem build_pdf_cli_assembly_witness :
    (build_pdf_cli R₀ (fun _ => M₀) (fun _ => []) M₀ id tw₀
      (fun _ => SvcOutcome.empty) (fun _ _ => SvcOutcome.empty)
      (fun _ => true) ["p"]).length = 2 ∧
    (make_cover_cli R₀ (fun _ => M₀) (fun _ => [])
        (fun _ => SvcOutcome.empty)).width = PAGE_SIZE.1 ∧
    (make_cover_cli R₀ (fun _ => M₀) (fun _ => [])
        (fun _ => SvcOutcome.empty)).height = PAGE_SIZE.2 := by
  have h := build_pdf_cli_assembly R₀ (fun _ => M₀) (fun _ => []) M₀ id tw₀
    (fun _ => SvcOutcome.empty) (fun _ _ => SvcOutcome.empty)
    (fun _ => true) ["p"]
  have hmem := h.2.2.2 (make_cover_cli R₀ (fun _ => M₀) (fun _ => [])
    (fun _ => SvcOutcome.empty)) (List.mem_cons_self _ _)
  exact ⟨h.1, hmem.1, hmem.2⟩

/-- Python `str.strip()`: drop leading and trailing whitespace. -/
def pyStrip (s : String) : String :=
  String.mk
    (((s.data.dropWhile Char.isWhitespace).reverse.dropWhile
        Char.isWhitespace).reverse)

/-- Python `s[:n]`. -/
def pyTake (n : Nat) (s : String) : String := String.mk (s.data.take n)

/-- The observable side-effect events of a run, in program order: file
opens (`append = true` for mode "a", `false` for mode "w"), file writes
(the written entry is determined by its tag and text), file closes,
remote image-service calls, and in-memory list appends
(`LOG_PROMPTS.append`). -/
inductive Ev where
  | fopen (append : Bool)
  | fwrite (tag txt : String)
  | fclose
  | svcCall (prompt : String)
  | memAppend (prompt : String)

/-- `dump(tag, txt)` from `cli_manual.py` (lines 59–61): open the log
file in append mode, write the formatted entry, close — all inside one
`with` block, per entry. -/
def dumpEv (tag txt : String) : List Ev :=
  [.fopen true, .fwrite tag txt, .fclose]

/-- Scan a trace keeping the texts already written to the log file; every
remote call's prompt must already be among them.  `true` iff every
constructed request was appended to the audit log before its call was
issued. -/
def auditOk (logged : List String) : List Ev → Bool
  | [] => true
  | .fwrite _ txt :: rest => auditOk (txt :: logged) rest
  | .svcCall p :: rest => logged.contains p && auditOk logged rest
  | _ :: rest => auditOk logged rest

/-- Check that all file activity consists of per-entry
open-in-append-mode / write / close brackets: no long-held write handle
and no truncating (`"w"`) open. -/
def perEntryLog : List Ev → Bool
  | [] => true
  | .fopen true :: .fwrite _ _ :: .fclose :: rest => perEntryLog rest
  | .svcCall _ :: rest => perEntryLog rest
  | .memAppend _ :: rest => perEntryLog rest
  | _ => false

/-- `NO_TEXT` from `cli_manual.py`. -/
def NO_TEXT : String :=
  "No text, no letters, no words, no subtitles, no watermark."

/-- `NEG` from `cli_manual.py`. -/
def NEG_MANUAL : String :=
  "extra limbs, mutated anatomy, wrong outfit, outfit change, watermark, blurry, ugly, any change of colours, clothes, props"

/-- The cover prompt built by `make_cover` in `cli_manual.py`;
`styleTag` is the run-unique `STYLE_TAG`. -/
def coverPromptManual (styleTag imgPrompt : String) : String :=
  imgPrompt ++ ". " ++ styleTag ++ ". A4 portrait illustration. " ++
    NO_TEXT ++ " --negative " ++ NEG_MANUAL

/-- The page prompt built by `build_pdf` in `cli_manual.py`. -/
def pagePromptManual (styleTag lock imgPrompt : String) : String :=
  lock ++ ". " ++ imgPrompt ++ ". " ++ styleTag ++
    ". A4 portrait illustration. " ++ NO_TEXT ++ " --negative " ++ NEG_MANUAL

/-- A page record parsed by `parse_spec` in `cli_manual.py`. -/
structure PageRec where
  hdr : String
  title : String
  img : String
  cap : String

/-- The character lock `build_pdf` derives from the cover image prompt:
the text before the first period, stripped. -/
def lockOf (p : PageRec) : String :=
  pyStrip ((p.img.splitOn ".").headD p.img)

/-- The event trace of one iteration of the `build_pdf` page loop in
`cli_manual.py`: for a cover page, `make_cover` dumps `cover_prompt` and
then calls `imagen`; otherwise the loop dumps `page_i` and then calls
`imagen`.  In both cases the dump precedes every remote call and each
attempt re-sends the same prompt. -/
def pageTraceManual (styleTag lock : String) (beh : Behaviour) (i : Nat)
    (p : PageRec) : List Ev :=
  if p.hdr.startsWith "cover" then
    dumpEv "cover_prompt" (coverPromptManual styleTag p.img) ++
      List.replicate (imagenCalls beh 0 (MAX_RETRY + 1))
        (.svcCall (coverPromptManual styleTag p.img))
  else
    dumpEv ("page_" ++ toString i) (pagePromptManual styleTag lock p.img) ++
      List.replicate (imagenCalls beh 0 (MAX_RETRY + 1))
        (.svcCall (pagePromptManual styleTag lock p.img))

/-- The page loop of `build_pdf` in `cli_manual.py`, from
`enumerate(pages, 1)`. -/
def buildTraceManual (styleTag : String) (Beh : Nat → Behaviour)
    (lock : String) : Nat → List PageRec → List Ev
  | _, [] => []
  | i, p :: rest =>
    pageTraceManual styleTag lock (Beh i) i p ++
      buildTraceManual styleTag Beh lock (i + 1) rest

/-- The full event trace of `build_pdf(pages)` in `cli_manual.py`
(lines 139–169): empty input returns immediately; otherwise the lock is
derived from the first page and the page loop runs. -/
def build_pdf_trace_manual (styleTag : String) (Beh : Nat → Behaviour)
    (pages : List PageRec) : List Ev :=
  match pages with
  | [] => []
  | p0 :: _ => buildTraceManual styleTag Beh (lockOf p0) 1 pages

/-- `STYLE_OUTLINE` from `cli_coloring.py`. -/
def STYLE_OUTLINE : String :=
  "Black and white line art only, super simple bold outline coloring-book page, no colors, no shading, no textures, no text, minimal detail, large shapes, thick lines, full page composition, designed for preschoolers aged 3 to 7"

/-- The per-page prompt built by `build_pdf` in `cli_coloring.py`. -/
def coloringPrompt (desc : String) : String :=
  STYLE_OUTLINE ++ ". " ++ desc ++ ". Centered, full-page."

/-- The event trace of one iteration of the `build_pdf` page loop in
`cli_coloring.py` (lines 129–140): the prompt is appended to the
in-memory `LOG_PROMPTS` list, then `imagen` issues up to `MAX_RETRY = 2`
remote calls with `prompt[:800]`.  Nothing is written to any file here. -/
def coloringPageTrace (beh : Behaviour) (prompt : String) : List Ev :=
  .memAppend prompt ::
    List.replicate (imagenCalls beh 0 MAX_RETRY)
      (.svcCall (pyTake 800 prompt))

/-- The page loop of `build_pdf` in `cli_coloring.py` over pages
`i, i+1, …` (`descs i` is the external GPT subject for page `i`). -/
def coloringPagesTrace (descs : Nat → String) (Beh : Nat → Behaviour) :
    Nat → Nat → List Ev
  | _, 0 => []
  | i, n + 1 =>
    coloringPageTrace (Beh i) (coloringPrompt (descs i)) ++
      coloringPagesTrace descs Beh (i + 1) n

/-- The prompts accumulated in `LOG_PROMPTS` over the run. -/
def coloringPrompts (descs : Nat → String) : Nat → Nat → List String
  | _, 0 => []
  | i, n + 1 => coloringPrompt (descs i) :: coloringPrompts descs (i + 1) n

/-- The single end-of-run log write of `build_pdf` in `cli_coloring.py`
(lines 145–149): open the log file once in mode "w", write the header and
then one line per recorded prompt, close. -/
def coloringFinalLog (theme : String) (prompts : List String) : List Ev :=
  .fopen false ::
    .fwrite "" ("Theme: " ++ theme ++ "\n\nPrompts:\n") ::
      (prompts.map (fun p => Ev.fwrite "" ("- " ++ p ++ "\n")) ++ [.fclose])

/-- The full event trace of `build_pdf(theme, pages)` in
`cli_coloring.py`: all page renders (each preceded only by an in-memory
append), then the one-shot log-file write at the very end. -/
def build_pdf_trace_coloring (theme : String) (descs : Nat → String)
    (Beh : Nat → Behaviour) (n : Nat) : List Ev :=
  coloringPagesTrace descs Beh 1 n ++
    coloringFinalLog theme (coloringPrompts descs 1 n)

/-- C7 counterexample: in `cli_coloring.py` with a single page, the first
remote call is issued before anything has been written to the log file
(the prompt is only appended to an in-memory list, and the file is
written once, in mode "w", after all calls) — so the claim that every
request is appended to the append-only log file, opened/appended/closed
per entry, before its call, fails on this cited source. -/
theorem coloring_log_violates_claim :
    auditOk [] (build_pdf_trace_coloring "t" (fun _ => "a dog")
      (fun _ _ => SvcOutcome.empty) 1) = false ∧
    perEntryLog (build_pdf_trace_coloring "t" (fun _ => "a dog")
      (fun _ _ => SvcOutcome.empty) 1) = false := by
  exact ⟨rfl, rfl⟩

theorem auditOk_replicate_svc (p : String) (logged : List String)
    (rest : List Ev) (h : logged.contains p = true) :
    ∀ n, auditOk logged (List.replicate n (Ev.svcCall p) ++ rest) =
      auditOk logged rest := by
  intro n
  induction n with
  | zero => rfl
  | succ m ih =>
    simp only [List.replicate_succ, List.cons_append, auditOk, h,
      Bool.true_and]
    exact ih

theorem perEntryLog_replicate_svc (p : String) (rest : List Ev) :
    ∀ n, perEntryLog (List.replicate n (Ev.svcCall p) ++ rest) =
      perEntryLog rest := by
  intro n
  induction n with
  | zero => rfl
  | succ m ih =>
    simp only [List.replicate_succ, List.cons_append, perEntryLog]
    exact ih

theorem auditOk_dump_prefix (tag P : String) (logged : List String)
    (evs : List Ev) :
    auditOk logged (dumpEv tag P ++ evs) = auditOk (P :: logged) evs := rfl

theorem perEntryLog_dump_prefix (tag P : String) (evs : List Ev) :
    perEntryLog (dumpEv tag P ++ evs) = perEntryLog evs := rfl

theorem buildTraceManual_auditOk (styleTag : String) (Beh : Nat → Behaviour)
    (lock : String) :
    ∀ pages i logged,
      auditOk logged (buildTraceManual styleTag Beh lock i pages) = true := by
  intro pages
  induction pages with
  | nil => intro i logged; rfl
  | cons p rest ih =>
    intro i logged
    show auditOk logged (pageTraceManual styleTag lock (Beh i) i p ++
      buildTraceManual styleTag Beh lock (i + 1) rest) = true
    simp only [pageTraceManual]
    by_cases hc : p.hdr.startsWith "cover"
    · rw [if_pos hc, List.append_assoc, auditOk_dump_prefix,
        auditOk_replicate_svc _ _ _ (by simp)]
      exact ih (i + 1) _
    · rw [if_neg hc, List.append_assoc, auditOk_dump_prefix,
        auditOk_replicate_svc _ _ _ (by simp)]
      exact ih (i + 1) _

theorem buildTraceManual_perEntry (styleTag : String)
    (Beh : Nat → Behaviour) (lock : String) :
    ∀ pages i,
      perEntryLog (buildTraceManual styleTag Beh lock i pages) = true := by
  intro pages
  induction pages with
  | nil => intro i; rfl
  | cons p rest ih =>
    intro i
    show perEntryLog (pageTraceManual styleTag lock (Beh i) i p ++
      buildTraceManual styleTag Beh lock (i + 1) rest) = true
    simp only [pageTraceManual]
    by_cases hc : p.hdr.startsWith "cover"
    · rw [if_pos hc, List.append_assoc, perEntryLog_dump_prefix,
        perEntryLog_replicate_svc]
      exact ih (i + 1)
    · rw [if_neg hc, List.append_assoc, perEntryLog_dump_prefix,
        perEntryLog_replicate_svc]
      exact ih (i + 1)

/-- C7 (amended): in `cli_manual.py` every constructed generation
request — the cover prompt and each page prompt — is written to the audit
log, with the log file opened in append mode, appended and closed per
entry, strictly before any of the remote calls that send it, for every
input and every service behaviour; no remote call is issued whose request
was not already logged.  In `cli_coloring.py`, by contrast, requests are
only appended to an in-memory list before each call and the log file is
written once, in truncating mode, at the end of the run (see the
counterexample). -/
theorem build_pdf_manual_logs_before_calls (styleTag : String)
    (Beh : Nat → Behaviour) (pages : List PageRec) :
    auditOk [] (build_pdf_trace_manual styleTag Beh pages) = true ∧
    perEntryLog (build_pdf_trace_manual styleTag Beh pages) = true := by
  cases pages with
  | nil => exact ⟨rfl, rfl⟩
  | cons p0 rest =>
    exact ⟨buildTraceManual_auditOk styleTag Beh (lockOf p0) (p0 :: rest) 1 [],
           buildTraceManual_perEntry styleTag Beh (lockOf p0) (p0 :: rest) 1⟩

/-- Case-insensitive literal prefix match: consume `pat` from the front
of `s` (as `re.I` does for the literal parts of `PAGE_HDR`), returning
the remainder. -/
def dropPrefixCI : List Char → List Char → Option (List Char)
  | [], s => some s
  | _ :: _, [] => none
  | p :: ps, c :: cs =>
    if c.toLower = p.toLower then dropPrefixCI ps cs else none

/-- Count a maximal run of characters satisfying `p` and return the
remainder. -/
def takeWhileCount (p : Char → Bool) : List Char → Nat × List Char
  | [] => (0, [])
  | c :: cs =>
    if p c then
      let r := takeWhileCount p cs
      (r.1 + 1, r.2)
    else (0, c :: cs)

/-- Match the `Page\s+\d+` alternative of `PAGE_HDR`, returning the
number of characters the group consumed and the remainder. -/
def matchPageNum (s : List Char) : Option (Nat × List Char) :=
  match dropPrefixCI "Page".data s with
  | none => none
  | some r =>
    let w := takeWhileCount Char.isWhitespace r
    if w.1 = 0 then none
    else
      let d := takeWhileCount Char.isDigit w.2
      if d.1 = 0 then none else some (4 + w.1 + d.1, d.2)

/-- Match the `\s+–\s+` separator of `PAGE_HDR`, returning the rest of
the line (capture group 2). -/
def sepMatch (s : List Char) : Option (List Char) :=
  match s with
  | c :: cs =>
    if c.isWhitespace then
      match cs.dropWhile Char.isWhitespace with
      | d :: ds =>
        if d = '–' then
          match ds with
          | e :: es =>
            if e.isWhitespace then some (es.dropWhile Char.isWhitespace)
            else none
          | [] => none
        else none
      | [] => none
    else none
  | [] => none

/-- `PAGE_HDR.match(ln.strip())` for
`PAGE_HDR = ^(Cover Page|End Page|Page\s+\d+)\s+–\s+(.*)$` with `re.I`:
`some (group1, group2)` on a match. -/
def pageHdrMatch (ln : String) : Option (String × String) :=
  let s := (pyStrip ln).data
  let finish := fun (g1 : Nat) (rest : List Char) =>
    match sepMatch rest with
    | some r2 => some (String.mk (s.take g1), String.mk r2)
    | none => none
  match dropPrefixCI "Cover Page".data s with
  | some r => finish 10 r
  | none =>
    match dropPrefixCI "End Page".data s with
    | some r => finish 8 r
    | none =>
      match matchPageNum s with
      | some nr => finish nr.1 nr.2
      | none => none

/-- Remainder of `s` after the first occurrence of the (non-empty)
substring `needle`, or `none` when `needle` does not occur. -/
def findSub (needle : List Char) : List Char → Option (List Char)
  | [] => if needle = [] then some [] else none
  | c :: cs =>
    if needle.isPrefixOf (c :: cs) then some ((c :: cs).drop needle.length)
    else findSub needle cs

/-- Python `needle in s`. -/
def containsSub (needle s : List Char) : Bool := (findSub needle s).isSome

/-- Fuel-bounded iteration of `findSub` to reach the text after the last
occurrence. -/
def afterLastOccAux (needle : List Char) : Nat → List Char → List Char
  | 0, s => s
  | fuel + 1, s =>
    match findSub needle s with
    | none => s
    | some r => afterLastOccAux needle fuel r

/-- Python `s.split(needle)[-1]`: the text after the last occurrence of
`needle` (the whole string when it does not occur). -/
def afterLastOcc (needle s : List Char) : List Char :=
  afterLastOccAux needle s.length s

/-- Python `s.split(":", 1)[-1]`: the text after the first colon, or the
whole string when there is none. -/
def afterFirstColon (s : List Char) : List Char :=
  match s.dropWhile (fun c => c != ':') with
  | [] => s
  | _ :: rest => rest

/-- Python `s.split(":", 1)[1]`: the text after the first colon, or
`none` — an `IndexError` — when there is none. -/
def afterFirstColonStrict (s : List Char) : Option (List Char) :=
  match s.dropWhile (fun c => c != ':') with
  | [] => none
  | _ :: rest => some rest

/-- A regex word character, for the `\b` boundaries of `\bText\b`. -/
def isWordChar (c : Char) : Bool := c.isAlphanum || c = '_'

/-- Scan for `re.search(r'\bText\b', ln)` (case-sensitive): an occurrence
of "Text" preceded and followed by a non-word character or the string
edge; `prev` is the character before the current position. -/
def hasWordTextAux (prev : Option Char) : List Char → Bool
  | [] => false
  | c :: cs =>
    ((("Text".data.isPrefixOf (c :: cs)) &&
        (match prev with
         | none => true
         | some p => !isWordChar p) &&
        (match (c :: cs).drop 4 with
         | [] => true
         | d :: _ => !isWordChar d)))
      || hasWordTextAux (some c) cs

/-- `re.search(r'\bText\b', ln)` as a Boolean. -/
def hasWordText (s : List Char) : Bool := hasWordTextAux none s

/-- The exceptions `parse_spec` can raise: assigning into the `None`
current-page record (`TypeError`), or `split(":", 1)[1]` on a line with
no colon (`IndexError`). -/
inductive PyErr where
  | typeError
  | indexError
deriving DecidableEq

/-- The `mode` variable of `parse_spec`: `None`, `"img"` or `"cap"`. -/
inductive Mode where
  | img
  | cap
deriving DecidableEq

/-- The loop body of `parse_spec` (`cli_manual.py`, lines 130–158) on one
line, faithful to Python evaluation order: a header match closes the
current page and opens a fresh record; a line containing
"A4 Image Prompt" computes its right-hand side (both `[-1]` indexings are
total) and then assigns into `cur` — a `TypeError` when `cur` is `None`;
a line containing "Embedded Text" or a `\bText\b` word evaluates
`ln.split(":", 1)[1]` first — an `IndexError` when the line has no
colon — and then assigns into `cur`; any other line extends the current
image prompt or caption when a page is open and a mode is active, and is
ignored otherwise. -/
def parseLine (st : List PageRec × Option PageRec × Option Mode)
    (ln : String) :
    Except PyErr (List PageRec × Option PageRec × Option Mode) :=
  let pages := st.1
  let cur := st.2.1
  let mode := st.2.2
  match pageHdrMatch ln with
  | some g =>
    let pages2 := match cur with
      | some c => pages ++ [c]
      | none => pages
    .ok (pages2,
      some ⟨(pyStrip g.1).toLower, pyStrip g.2, "", ""⟩, none)
  | none =>
    if containsSub "A4 Image Prompt".data ln.data then
      let rhs := pyStrip (String.mk
        (afterFirstColon (afterLastOcc "A4 Image Prompt".data ln.data)))
      match cur with
      | none => .error .typeError
      | some c => .ok (pages, some { c with img := rhs }, some .img)
    else if containsSub "Embedded Text".data ln.data
        || hasWordText ln.data then
      match afterFirstColonStrict ln.data with
      | none => .error .indexError
      | some r =>
        match cur with
        | none => .error .typeError
        | some c =>
          .ok (pages, some { c with cap := pyStrip (String.mk r) },
            some .cap)
    else
      match cur, mode with
      | some c, some .img =>
        .ok (pages, some { c with img := c.img ++ " " ++ pyStrip ln }, mode)
      | some c, some .cap =>
        .ok (pages, some { c with cap := c.cap ++ " " ++ pyStrip ln }, mode)
      | _, _ => .ok (pages, cur, mode)

/-- The `for ln in text.splitlines()` loop of `parse_spec`, threading the
state and propagating a raised exception. -/
def parseSpecGo : List String →
    (List PageRec × Option PageRec × Option Mode) →
    Except PyErr (List PageRec × Option PageRec × Option Mode)
  | [], st => .ok st
  | ln :: rest, st =>
    match parseLine st ln with
    | .error e => .error e
    | .ok st2 => parseSpecGo rest st2

/-- `parse_spec(text)` from `cli_manual.py` over the already-split lines
of the input: the final `if cur: pages.append(cur)` closes the last page;
an exception raised inside the loop propagates. -/
def parse_spec (lines : List String) : Except PyErr (List PageRec) :=
  match parseSpecGo lines ([], none, none) with
  | .error e => .error e
  | .ok st =>
    .ok (match st.2.1 with
      | some c => st.1 ++ [c]
      | none => st.1)

/-- A line is a page header iff `PAGE_HDR` matches it. -/
def isHdrLine (ln : String) : Bool := (pageHdrMatch ln).isSome

/-- A line that enters one of the two assigning branches: it contains
"A4 Image Prompt", contains "Embedded Text", or has a `\bText\b` word. -/
def isTrigger (ln : String) : Bool :=
  containsSub "A4 Image Prompt".data ln.data
    || containsSub "Embedded Text".data ln.data
    || hasWordText ln.data

theorem parseLine_inert (ln : String) (hh : isHdrLine ln = false)
    (ht : isTrigger ln = false) (pages : List PageRec) :
    parseLine (pages, none, none) ln = .ok (pages, none, none) := by
  simp only [isTrigger, Bool.or_eq_false_iff] at ht
  obtain ⟨⟨h1, h2⟩, h3⟩ := ht
  unfold parseLine
  cases hm : pageHdrMatch ln with
  | some g =>
    rw [isHdrLine, hm] at hh
    simp at hh
  | none =>
    simp only [h1, h2, h3, Bool.false_or, Bool.or_self, if_neg,
      Bool.false_eq_true, not_false_eq_true]

theorem parseSpecGo_inert (pre : List String)
    (hpre : ∀ l ∈ pre, isHdrLine l = false ∧ isTrigger l = false) :
    ∀ rest, parseSpecGo (pre ++ rest) ([], none, none) =
      parseSpecGo rest ([], none, none) := by
  induction pre with
  | nil => intro rest; rfl
  | cons l ls ih =>
    intro rest
    have hl := hpre l (List.mem_cons_self _ _)
    have hls : ∀ l ∈ ls, isHdrLine l = false ∧ isTrigger l = false :=
      fun x hx => hpre x (List.mem_cons_of_mem _ hx)
    show parseSpecGo (l :: (ls ++ rest)) ([], none, none) = _
    simp only [parseSpecGo, parseLine_inert l hl.1 hl.2]
    exact ih hls rest

theorem parseLine_trigger_raises (t : String) (hth : isHdrLine t = false)
    (ht : isTrigger t = true) (pages : List PageRec) :
    (∃ e, parseLine (pages, none, none) t = .error e) ∧
    (containsSub "A4 Image Prompt".data t.data = false →
      afterFirstColonStrict t.data = none →
      parseLine (pages, none, none) t = .error .indexError) := by
  unfold parseLine
  cases hm : pageHdrMatch t with
  | some g =>
    rw [isHdrLine, hm] at hth
    simp at hth
  | none =>
    constructor
    · by_cases hA4 : containsSub "A4 Image Prompt".data t.data = true
      · exact ⟨.typeError, by simp only [hA4, if_pos]⟩
      · have hA4f : containsSub "A4 Image Prompt".data t.data = false := by
          simpa using hA4
        have htxt : (containsSub "Embedded Text".data t.data
            || hasWordText t.data) = true := by
          rw [isTrigger, hA4f, Bool.false_or] at ht
          exact ht
        cases hc : afterFirstColonStrict t.data with
        | none =>
          exact ⟨.indexError, by simp only [hA4f, htxt, hc,
            Bool.false_eq_true, if_neg, if_pos, not_false_eq_true]⟩
        | some r =>
          exact ⟨.typeError, by simp only [hA4f, htxt, hc,
            Bool.false_eq_true, if_neg, if_pos, not_false_eq_true]⟩
    · intro hA4f hc
      have htxt : (containsSub "Embedded Text".data t.data
          || hasWordText t.data) = true := by
        rw [isTrigger, hA4f, Bool.false_or] at ht
        exact ht
      simp only [hA4f, htxt, hc, Bool.false_eq_true, if_neg, if_pos,
        not_false_eq_true]

/-- C9: `parse_spec` is partial at its public interface.  For every input
in which some line containing "A4 Image Prompt", "Embedded Text" or a
`\bText\b` word occurs before any page-header line (input decomposed as
`pre ++ t :: rest` with `pre` free of headers and triggers and `t` the
first trigger, itself not a header), `parse_spec` raises — the body
branch assigns into the `None` current-page record, or the colon split
indexes out of range — instead of returning pages; and when that trigger
line is handled by the `Text` branch (it does not contain
"A4 Image Prompt") and has no colon, the raised exception is an
`IndexError`. -/
theorem parse_spec_raises_on_preheader_trigger (pre : List String)
    (t : String) (rest : List String)
    (hpre : ∀ l ∈ pre, isHdrLine l = false ∧ isTrigger l = false)
    (hth : isHdrLine t = false) (ht : isTrigger t = true) :
    (∃ e, parse_spec (pre ++ t :: rest) = .error e) ∧
    (containsSub "A4 Image Prompt".data t.data = false →
      afterFirstColonStrict t.data = none →
      parse_spec (pre ++ t :: rest) = .error .indexError) := by
  have hgo := parseSpecGo_inert pre hpre (t :: rest)
  have hraise := parseLine_trigger_raises t hth ht []
  constructor
  · obtain ⟨e, he⟩ := hraise.1
    refine ⟨e, ?_⟩
    unfold parse_spec
    rw [hgo]
    simp only [parseSpecGo, he]
  · intro hA4 hc
    have he := hraise.2 hA4 hc
    unfold parse_spec
    rw [hgo]
    simp only [parseSpecGo, he]

/-- Witness for C9: the single-line input whose first line is
"Text with no colon" (a `\bText\b` line, no header before it, no colon)
makes `parse_spec` raise, and specifically an `IndexError`. -/
theorem parse_spec_raises_witness :
    ((∀ l ∈ (["hello world"] : List String),
        isHdrLine l = false ∧ isTrigger l = false) ∧
      isHdrLine "some Text here" = false ∧
      isTrigger "some Text here" = true) ∧
    (∃ e, parse_spec (["hello world"] ++ "some Text here" :: []) =
      .error e) ∧
    parse_spec (["hello world"] ++ "some Text here" :: []) =
      .error .indexError := by
  have h := parse_spec_raises_on_preheader_trigger ["hello world"]
    "some Text here" [] (by decide) (by decide) (by decide)
  exact ⟨⟨by decide, by decide, by decide⟩, h.1, h.2 (by decide) (by decide)⟩

/-- Every character the ignore-encode stage keeps is Latin-1
representable (the strict decode may still remap pairs of them, see the
C10 counterexample). -/
theorem latin1Ignored_chars_le (nfkd : String → String) (s : String) :
    ∀ c ∈ (latin1Ignored nfkd s).data, c.toNat ≤ 255 := by
  intro c hc
  have hc2 : c ∈ ((nfkd s).data.filter (fun c => c.toNat ≤ 255)) := hc
  exact of_decide_eq_true (List.mem_filter.mp hc2).2

/-- The characters of every word produced by the whitespace split come
from the input (or the accumulator). -/
theorem splitWsAux_chars :
    ∀ s acc, ∀ l ∈ splitWsAux s acc, ∀ c ∈ l, c ∈ s ∨ c ∈ acc := by
  intro s
  induction s with
  | nil =>
    intro acc l hl c hc
    unfold splitWsAux at hl
    split at hl
    · simp at hl
    · rw [List.mem_singleton] at hl
      subst hl
      exact Or.inr (List.mem_reverse.mp hc)
  | cons a as ih =>
    intro acc l hl c hc
    unfold splitWsAux at hl
    split at hl
    · split at hl
      · rcases ih [] l hl c hc with h | h
        · exact Or.inl (List.mem_cons_of_mem _ h)
        · simp at h
      · rcases List.mem_cons.mp hl with rfl | h
        · exact Or.inr (List.mem_reverse.mp hc)
        · rcases ih [] l h c hc with h2 | h2
          · exact Or.inl (List.mem_cons_of_mem _ h2)
          · simp at h2
    · rcases ih (a :: acc) l hl c hc with h | h
      · exact Or.inl (List.mem_cons_of_mem _ h)
      · rcases List.mem_cons.mp h with rfl | h2
        · exact Or.inl (List.mem_cons_self _ _)
        · exact Or.inr h2

/-- The greedy wrap only rearranges word characters and inserts spaces:
if every word is Latin-1, every produced line is Latin-1. -/
theorem wrapWords_latin1 (measure : String → Nat) (usable : Int) :
    ∀ ws lines line,
      (∀ w ∈ ws, ∀ c ∈ w.data, c.toNat ≤ 255) →
      (∀ l ∈ lines, ∀ c ∈ l.data, c.toNat ≤ 255) →
      (∀ c ∈ line.data, c.toNat ≤ 255) →
      ∀ l ∈ wrapWords measure usable ws lines line, ∀ c ∈ l.data,
        c.toNat ≤ 255 := by
  intro ws
  induction ws with
  | nil =>
    intro lines line _ hlines hline l hl
    unfold wrapWords at hl
    split at hl
    · exact hlines l hl
    · rcases List.mem_append.mp hl with h | h
      · exact hlines l h
      · rw [List.mem_singleton] at h
        subst h
        exact hline
  | cons w ws ih =>
    intro lines line hws hlines hline l hl
    have hw : ∀ c ∈ w.data, c.toNat ≤ 255 := hws w (List.mem_cons_self _ _)
    have hws2 : ∀ v ∈ ws, ∀ c ∈ v.data, c.toNat ≤ 255 :=
      fun v hv => hws v (List.mem_cons_of_mem _ hv)
    have htest : ∀ c ∈ (if line = "" then w
        else line ++ " " ++ w).data, c.toNat ≤ 255 := by
      split
      · exact hw
      · intro c hc
        rw [String.data_append, String.data_append] at hc
        rcases List.mem_append.mp hc with h | h
        · rcases List.mem_append.mp h with h2 | h2
          · exact hline c h2
          · have hsp : c = ' ' := by simpa using h2
            subst hsp
            decide
        · exact hw c h
    unfold wrapWords at hl
    split at hl
    · rename_i he
      simp only [] at hl
      split at hl
      · refine ih lines _ hws2 hlines ?_ l hl
        simpa [he] using htest
      · exact ih lines w hws2 hlines hw l hl
    · rename_i he
      simp only [] at hl
      split at hl
      · refine ih lines _ hws2 hlines ?_ l hl
        simpa [if_neg he] using htest
      · refine ih (lines ++ [line]) w hws2 ?_ hw l hl
        intro u hu
        rcases List.mem_append.mp hu with h | h
        · exact hlines u h
        · rw [List.mem_singleton] at h
          subst h
          exact hline

/-- C10 counterexample: `safe` does not silently drop every
non-representable character, and its output is not always Latin-1.  The
NFKD-invariant input "5×3" ignore-encodes to the bytes `35 D7 33`, which
strict UTF-8 rejects — `safe` raises a `UnicodeDecodeError`, a rendering
failure, not a silent drop.  The NFKD-invariant input "Æ©" ignore-encodes
to `C6 A9`, a valid 2-byte UTF-8 sequence, so `safe` returns "Ʃ"
(U+01A9) — a character that is not Latin-1 representable ends up in the
drawn text. -/
theorem safe_not_silent_drop :
    safe id "5×3" = none ∧
    safe id "Æ©" = some "Ʃ" ∧
    ¬ (∀ c ∈ "Ʃ".data, c.toNat ≤ 255) := by
  decide

/-- C10 (amended): every caption and title passes through `safe` before
wrapping and drawing.  Characters above U+00FF — emoji, non-Latin
scripts — are dropped at the Latin-1 ignore-encode stage; when every kept
character is ASCII, the strict UTF-8 re-decode returns exactly the kept
text without failing, and each character of every wrapped (drawn) line is
then Latin-1 representable (code point ≤ 255, the wrap-inserted spaces
included).  The guarantee is limited to that fragment: kept characters in
0x80–0xFF make the strict decode raise or remap to non-Latin-1
characters (see the counterexample). -/
theorem safe_ascii_silent_drop_and_wrap (M : FontMetric) (W : Nat) :
    (∀ nfkd s, (∀ c ∈ (latin1Ignored nfkd s).data, c.toNat ≤ 127) →
      safe nfkd s = some (latin1Ignored nfkd s)) ∧
    (∀ nfkd (caption s : String), safe nfkd caption = some s →
      (∀ c ∈ s.data, c.toNat ≤ 255) →
      ∀ l ∈ overlayWrapPost M W s, ∀ c ∈ l.data, c.toNat ≤ 255) ∧
    safe id "😀" = some "" := by
  refine ⟨fun nfkd s h => safe_ascii nfkd s h, ?_, by decide⟩
  intro nfkd caption s _ hchars l hl
  refine wrapWords_latin1 M.width ((W : Int) - 2 * 40 - 2 * 24)
    (pySplit s) [] "" ?_ (by simp) (by simp) l hl
  intro w hw c hc
  obtain ⟨cl, hcl, rfl⟩ := List.mem_map.mp hw
  rcases splitWsAux_chars _ [] cl hcl c hc with h | h
  · exact hchars c h
  · simp at h

/-- Witness for the amended C10 at a concrete ASCII caption: `safe`
returns it unchanged and every wrapped line is Latin-1. -/
theorem safe_ascii_silent_drop_and_wrap_witness :
    (∀ c ∈ (latin1Ignored id "Hi there").data, c.toNat ≤ 127) ∧
    safe id "Hi there" = some (latin1Ignored id "Hi there") ∧
    (∀ c ∈ "Hi there".data, c.toNat ≤ 255) ∧
    (∀ l ∈ overlayWrapPost M₀ 200 "Hi there", ∀ c ∈ l.data,
      c.toNat ≤ 255) := by
  have h := safe_ascii_silent_drop_and_wrap M₀ 200
  refine ⟨by decide, h.1 id "Hi there" (by decide), by decide, ?_⟩
  exact h.2.1 id "Hi there" "Hi there" (by decide) (by decide)

end Storybook
